import Mathlib

/-!
Verification of the chunked voxel world engine against its specification.

The Rust sources are shallowly embedded: pure functions become Lean
functions, the mutable `World`, `Chunk` and `Player` become explicit
state passing, Rust `f32` arithmetic is modelled over the rationals, and
`i32` and `usize` values are modelled as `Int` and `Nat` (with explicit
wrapping where the source relies on it).
-/

namespace VoxelWorld

/-! ## Chunk and voxel data model, from src/game/chunk.rs -/

/-- Block types, from the `VoxelType` enum in chunk.rs. -/
inductive VoxelType where
  | Air
  | Grass
  | Dirt
  | Stone
deriving DecidableEq, Repr

/-- `CHUNK_SIZE` constant from chunk.rs. -/
def CHUNK_SIZE : Nat := 16

/-- `CHUNK_VOLUME` constant from chunk.rs. -/
def CHUNK_VOLUME : Nat := CHUNK_SIZE * CHUNK_SIZE * CHUNK_SIZE

/-- `get_chunk_index` from chunk.rs: flat index `x + y*N + z*N*N`. -/
def get_chunk_index (x y z : Nat) : Nat :=
  x + y * CHUNK_SIZE + z * CHUNK_SIZE * CHUNK_SIZE

/-- `ChunkPos` struct from chunk.rs: integer chunk-grid coordinates. -/
structure ChunkPos where
  x : Int
  y : Int
  z : Int
deriving DecidableEq, Repr

/-- `ChunkPos::new` from chunk.rs. -/
def ChunkPos.new (x y z : Int) : ChunkPos := ⟨x, y, z⟩

/-- `Chunk` from chunk.rs: the flat voxel array `[VoxelType; CHUNK_VOLUME]`
is modelled as a total function from flat indices to voxel types. -/
structure Chunk where
  voxels : Nat → VoxelType

/-- `Chunk::new` from chunk.rs: every cell defaults to Air. -/
def Chunk.new : Chunk := ⟨fun _ => VoxelType.Air⟩

/-- `Chunk::set_voxel` from chunk.rs: overwrite the flat-array cell. -/
def Chunk.set_voxel (c : Chunk) (x y z : Nat) (voxel_type : VoxelType) : Chunk :=
  ⟨fun i => if i = get_chunk_index x y z then voxel_type else c.voxels i⟩

/-- `Chunk::get_voxel` from chunk.rs: always returns `Some` of the cell. -/
def Chunk.get_voxel (c : Chunk) (x y z : Nat) : Option VoxelType :=
  some (c.voxels (get_chunk_index x y z))

/-! ## World, from src/game/world.rs

The chunk `HashMap` is modelled as a total function from chunk positions
to optional chunks.  The snapshot of world.rs in the repository predates
its callers (chunk_renderer.rs and lib.rs drive `take_dirty_chunks`, and
call `load_chunk` and `set_voxel` without a GPU device); the dirty-set
behaviour those callers rely on is therefore modelled from the
specification, as flagged on each definition below.  GPU buffer handling
inside world.rs is external rendering glue and is not part of the model. -/

/-- World-to-chunk coordinate component, as computed inline in
`World::get_voxel` and `World::set_voxel`: `w.div_euclid(CHUNK_SIZE)`. -/
def chunk_coord (w : Int) : Int := w / (CHUNK_SIZE : Int)

/-- Local coordinate component inside the owning chunk, as computed inline
in `World::get_voxel` and `World::set_voxel`: `w.rem_euclid(CHUNK_SIZE)`. -/
def local_coord (w : Int) : Int := w % (CHUNK_SIZE : Int)

/-- The chunk position owning a world voxel coordinate. -/
def owner_pos (wx wy wz : Int) : ChunkPos :=
  ChunkPos.new (chunk_coord wx) (chunk_coord wy) (chunk_coord wz)

/-- `World` from world.rs: chunk map plus the dirty set.
The dirty set is modelled from the spec: a set of chunk coordinates marked
dirty since the last drain, represented as a duplicate-free list. -/
structure World where
  chunks : ChunkPos → Option Chunk
  dirty : List ChunkPos

/-- `World::new` from world.rs: empty chunk map, empty dirty set. -/
def World.new : World := ⟨fun _ => none, []⟩

/-- `World::get_chunk` from world.rs. -/
def World.get_chunk (w : World) (pos : ChunkPos) : Option Chunk :=
  w.chunks pos

/-- Modelled from the spec: marking a chunk dirty inserts its coordinate
into the dirty set (absent from the world.rs snapshot, which predates the
dirty-set drain used by chunk_renderer.rs).  Set insertion: a coordinate
already present is not duplicated. -/
def World.mark_dirty (w : World) (pos : ChunkPos) : World :=
  if pos ∈ w.dirty then w else ⟨w.chunks, pos :: w.dirty⟩

/-- `World::generate_chunk` from world.rs: layered terrain by world Y
(stone below -3, dirt below 0, grass at 0, air above), written cell by
cell over the triple `z, y, x` loop. -/
def World.generate_chunk (pos : ChunkPos) : Chunk :=
  (List.range CHUNK_SIZE).foldl (fun cz (z : Nat) =>
    (List.range CHUNK_SIZE).foldl (fun cy (y : Nat) =>
      (List.range CHUNK_SIZE).foldl (fun cx (x : Nat) =>
        let wy : Int := pos.y * (CHUNK_SIZE : Int) + (y : Int)
        let voxel :=
          if wy < -3 then VoxelType.Stone
          else if wy < 0 then VoxelType.Dirt
          else if wy = 0 then VoxelType.Grass
          else VoxelType.Air
        cx.set_voxel x y z voxel) cy) cz) Chunk.new

/-- `World::load_chunk` from world.rs: no-op when the chunk is already a
key of the map; otherwise generates and inserts the chunk.  Marking the
fresh chunk dirty is modelled from the spec (on first call the chunk is
generated, inserted, and marked dirty). -/
def World.load_chunk (w : World) (pos : ChunkPos) : World :=
  if (w.chunks pos).isSome then w
  else
    let chunk := World.generate_chunk pos
    World.mark_dirty ⟨fun p => if p = pos then some chunk else w.chunks p, w.dirty⟩ pos

/-- `World::get_voxel` from world.rs: Euclidean division maps the world
coordinate to the owning chunk and the local cell; an unloaded chunk
yields `none`. -/
def World.get_voxel (w : World) (wx wy wz : Int) : Option VoxelType :=
  let chunk_pos := owner_pos wx wy wz
  let local_x := (local_coord wx).toNat
  let local_y := (local_coord wy).toNat
  let local_z := (local_coord wz).toNat
  match w.chunks chunk_pos with
  | none => none
  | some c => c.get_voxel local_x local_y local_z

/-- `World::set_voxel` from world.rs: loads the owning chunk on demand,
then writes the local cell.  Marking the owning chunk dirty is modelled
from the spec (set_voxel writes the voxel and marks the chunk dirty). -/
def World.set_voxel (w : World) (wx wy wz : Int) (voxel : VoxelType) : World :=
  let chunk_pos := owner_pos wx wy wz
  let local_x := (local_coord wx).toNat
  let local_y := (local_coord wy).toNat
  let local_z := (local_coord wz).toNat
  let w1 := w.load_chunk chunk_pos
  let w2 : World :=
    match w1.chunks chunk_pos with
    | some c =>
        ⟨fun p => if p = chunk_pos then some (c.set_voxel local_x local_y local_z voxel)
                  else w1.chunks p,
         w1.dirty⟩
    | none => w1
  w2.mark_dirty chunk_pos

/-- Modelled from the spec: `take_dirty_chunks` drains and returns the
dirty set exactly once; after the call the set is empty (the function is
called by chunk_renderer.rs but absent from the world.rs snapshot). -/
def World.take_dirty_chunks (w : World) : List ChunkPos × World :=
  (w.dirty, ⟨w.chunks, []⟩)

/-- Shared solidity test: both raycast.rs (`!matches!(voxel, Air)` under
`if let Some`) and player.rs (skip on `Some(Air) | None`) treat a voxel as
solid exactly when the query returns a present, non-Air voxel. -/
def voxel_solid (w : World) (x y z : Int) : Bool :=
  match w.get_voxel x y z with
  | some VoxelType.Air => false
  | none => false
  | some _ => true

/-! ## Raycasting, from src/game/raycast.rs

The `f32` arithmetic of the source is modelled over the rationals; the
`f32::MAX` sentinel used for unreachable crossing distances is the exact
rational value of that float constant. -/

/-- The exact rational value of `f32::MAX`, the sentinel raycast.rs
substitutes for the crossing distance of a zero direction axis. -/
def f32_MAX : ℚ := 2 ^ 128 - 2 ^ 104

/-- Rust `f32::floor` followed by `as i32`, on rationals: the
mathematical floor, in the computable form num div den (proved equal to
the floor below). -/
def rat_floor (q : ℚ) : Int := q.num / (q.den : Int)

/-- Per-axis crossing distance increment from raycast.rs:
`if direction.a != 0.0 { (1.0 / direction.a).abs() } else { f32::MAX }`. -/
def t_delta_of (d : ℚ) : ℚ := if d ≠ 0 then |1 / d| else f32_MAX

/-- `RaycastHit` struct from raycast.rs. -/
structure RaycastHit where
  position : Int × Int × Int
  normal : Int × Int × Int
  distance : ℚ
deriving DecidableEq, Repr

/-- The loop-invariant per-axis data of `raycast_voxel`: step signs and
crossing-distance increments. -/
structure RayParams where
  step_x : Int
  step_y : Int
  step_z : Int
  t_delta_x : ℚ
  t_delta_y : ℚ
  t_delta_z : ℚ
deriving DecidableEq, Repr

/-- The mutable state of the `raycast_voxel` traversal loop. -/
structure RayState where
  voxel_x : Int
  voxel_y : Int
  voxel_z : Int
  t_max_x : ℚ
  t_max_y : ℚ
  t_max_z : ℚ
  last_normal : Int × Int × Int
  distance : ℚ
deriving DecidableEq, Repr

/-- One advance of the traversal, from the step block of `raycast_voxel`:
move along the axis with the smallest remaining distance-to-boundary,
record the crossed face as the candidate normal, accumulate distance. -/
def raycast_step (p : RayParams) (s : RayState) : RayState :=
  if s.t_max_x < s.t_max_y ∧ s.t_max_x < s.t_max_z then
    ⟨s.voxel_x + p.step_x, s.voxel_y, s.voxel_z,
     s.t_max_x + p.t_delta_x, s.t_max_y, s.t_max_z,
     (-p.step_x, 0, 0), s.t_max_x⟩
  else if s.t_max_y < s.t_max_z then
    ⟨s.voxel_x, s.voxel_y + p.step_y, s.voxel_z,
     s.t_max_x, s.t_max_y + p.t_delta_y, s.t_max_z,
     (0, -p.step_y, 0), s.t_max_y⟩
  else
    ⟨s.voxel_x, s.voxel_y, s.voxel_z + p.step_z,
     s.t_max_x, s.t_max_y, s.t_max_z + p.t_delta_z,
     (0, 0, -p.step_z), s.t_max_z⟩

/-- The `for _ in 0..100` voxel-stepping loop of `raycast_voxel`: check
the current cell, otherwise step and stop once the accumulated distance
exceeds the maximum range. -/
def raycast_loop (w : World) (p : RayParams) (max_distance : ℚ) :
    Nat → RayState → Option RaycastHit
  | 0, _ => none
  | Nat.succ n, s =>
    if voxel_solid w s.voxel_x s.voxel_y s.voxel_z then
      some ⟨(s.voxel_x, s.voxel_y, s.voxel_z), s.last_normal, s.distance⟩
    else
      let s2 := raycast_step p s
      if s2.distance > max_distance then none
      else raycast_loop w p max_distance n s2

/-- `raycast_voxel` from raycast.rs: incremental voxel traversal from a
rational origin along a direction, with a fixed 100-iteration ceiling. -/
def raycast_voxel (w : World) (origin direction : ℚ × ℚ × ℚ)
    (max_distance : ℚ) : Option RaycastHit :=
  let step_x : Int := if direction.1 > 0 then 1 else -1
  let step_y : Int := if direction.2.1 > 0 then 1 else -1
  let step_z : Int := if direction.2.2 > 0 then 1 else -1
  let t_delta_x := t_delta_of direction.1
  let t_delta_y := t_delta_of direction.2.1
  let t_delta_z := t_delta_of direction.2.2
  let voxel_x : Int := rat_floor origin.1
  let voxel_y : Int := rat_floor origin.2.1
  let voxel_z : Int := rat_floor origin.2.2
  let t_max_x : ℚ :=
    if direction.1 > 0 then (((voxel_x + 1 : Int) : ℚ) - origin.1) / direction.1
    else if direction.1 < 0 then (origin.1 - ((voxel_x : Int) : ℚ)) / (-direction.1)
    else f32_MAX
  let t_max_y : ℚ :=
    if direction.2.1 > 0 then (((voxel_y + 1 : Int) : ℚ) - origin.2.1) / direction.2.1
    else if direction.2.1 < 0 then (origin.2.1 - ((voxel_y : Int) : ℚ)) / (-direction.2.1)
    else f32_MAX
  let t_max_z : ℚ :=
    if direction.2.2 > 0 then (((voxel_z + 1 : Int) : ℚ) - origin.2.2) / direction.2.2
    else if direction.2.2 < 0 then (origin.2.2 - ((voxel_z : Int) : ℚ)) / (-direction.2.2)
    else f32_MAX
  raycast_loop w ⟨step_x, step_y, step_z, t_delta_x, t_delta_y, t_delta_z⟩
    max_distance 100
    ⟨voxel_x, voxel_y, voxel_z, t_max_x, t_max_y, t_max_z, (0, 0, 0), 0⟩

/-- A face normal with exactly one component equal to plus or minus one
and the other two components zero. -/
def is_unit_normal (n : Int × Int × Int) : Prop :=
  n = (1, 0, 0) ∨ n = (-1, 0, 0) ∨ n = (0, 1, 0) ∨ n = (0, -1, 0) ∨
  n = (0, 0, 1) ∨ n = (0, 0, -1)

/-! ## Meshing, from src/rendering/mesh.rs and texture_atlas.rs -/

/-- `FaceDirection` enum from texture_atlas.rs. -/
inductive FaceDirection where
  | North
  | South
  | East
  | West
  | Top
  | Bottom
deriving DecidableEq, Repr

/-- `FaceDirection::normal` from mesh.rs: the constant outward normal. -/
def FaceDirection.normal : FaceDirection → ℚ × ℚ × ℚ
  | FaceDirection.North => (0, 0, 1)
  | FaceDirection.South => (0, 0, -1)
  | FaceDirection.East => (1, 0, 0)
  | FaceDirection.West => (-1, 0, 0)
  | FaceDirection.Top => (0, 1, 0)
  | FaceDirection.Bottom => (0, -1, 0)

/-- `FaceDirection::vertices` from mesh.rs: the six vertex positions of
the face quad (two counter-clockwise triangles). -/
def FaceDirection.vertices (d : FaceDirection) (x y z : ℚ) : List (ℚ × ℚ × ℚ) :=
  match d with
  | FaceDirection.North =>
      [(x, y, z + 1), (x + 1, y, z + 1), (x + 1, y + 1, z + 1),
       (x, y, z + 1), (x + 1, y + 1, z + 1), (x, y + 1, z + 1)]
  | FaceDirection.South =>
      [(x + 1, y, z), (x, y, z), (x, y + 1, z),
       (x + 1, y, z), (x, y + 1, z), (x + 1, y + 1, z)]
  | FaceDirection.East =>
      [(x + 1, y, z + 1), (x + 1, y, z), (x + 1, y + 1, z),
       (x + 1, y, z + 1), (x + 1, y + 1, z), (x + 1, y + 1, z + 1)]
  | FaceDirection.West =>
      [(x, y, z), (x, y, z + 1), (x, y + 1, z + 1),
       (x, y, z), (x, y + 1, z + 1), (x, y + 1, z)]
  | FaceDirection.Top =>
      [(x, y + 1, z + 1), (x + 1, y + 1, z + 1), (x + 1, y + 1, z),
       (x, y + 1, z + 1), (x + 1, y + 1, z), (x, y + 1, z)]
  | FaceDirection.Bottom =>
      [(x, y, z), (x + 1, y, z), (x + 1, y, z + 1),
       (x, y, z), (x + 1, y, z + 1), (x, y, z + 1)]

/-- `TextureAtlas` from texture_atlas.rs. -/
structure TextureAtlas where
  tile_size : ℚ
deriving DecidableEq, Repr

/-- `TextureAtlas::new` from texture_atlas.rs. -/
def TextureAtlas.new (atlas_size tile_count : Nat) : TextureAtlas :=
  ⟨1 / (tile_count : ℚ)⟩

/-- `TextureAtlas::get_tile_coords` from texture_atlas.rs. -/
def TextureAtlas.get_tile_coords (a : TextureAtlas) (voxel : VoxelType)
    (face : FaceDirection) : ℚ × ℚ :=
  match voxel with
  | VoxelType.Air => (0, 0)
  | VoxelType.Stone => (2, 0)
  | VoxelType.Dirt => (1, 0)
  | VoxelType.Grass =>
      match face with
      | FaceDirection.Top => (0, 1)
      | FaceDirection.Bottom => (1, 0)
      | _ => (0, 0)

/-- `TextureAtlas::get_uvs` from texture_atlas.rs: the six per-vertex
texture coordinates of a face quad. -/
def TextureAtlas.get_uvs (a : TextureAtlas) (voxel : VoxelType)
    (face : FaceDirection) : List (ℚ × ℚ) :=
  let uv := a.get_tile_coords voxel face
  let u_min := uv.1 * a.tile_size
  let u_max := (uv.1 + 1) * a.tile_size
  let v_min := uv.2 * a.tile_size
  let v_max := (uv.2 + 1) * a.tile_size
  [(u_min, v_max), (u_max, v_max), (u_max, v_min),
   (u_min, v_max), (u_max, v_min), (u_min, v_min)]

/-- `Vertex` from mesh.rs (position, texture coordinates, normal). -/
structure Vertex where
  position : ℚ × ℚ × ℚ
  tex_coords : ℚ × ℚ
  normal : ℚ × ℚ × ℚ
deriving DecidableEq, Repr

/-- `ChunkMesher` from mesh.rs. -/
structure ChunkMesher where
  texture_atlas : TextureAtlas
deriving DecidableEq, Repr

/-- `ChunkMesher::new` from mesh.rs. -/
def ChunkMesher.new : ChunkMesher := ⟨TextureAtlas.new 256 16⟩

/-- `usize::wrapping_sub(1)` on 64-bit, used by the neighbor table in
`add_voxel_faces` so that local coordinate 0 wraps far out of bounds. -/
def usize_wrapping_sub_one (x : Nat) : Nat := (x + (2 ^ 64 - 1)) % 2 ^ 64

/-- The neighbor table of `add_voxel_faces` from mesh.rs: each face
direction paired with the (wrapping) local coordinates of the neighbor. -/
def voxel_faces (x y z : Nat) : List (FaceDirection × (Nat × Nat × Nat)) :=
  [(FaceDirection.North, (x, y, z + 1)),
   (FaceDirection.South, (x, y, usize_wrapping_sub_one z)),
   (FaceDirection.East, (x + 1, y, z)),
   (FaceDirection.West, (usize_wrapping_sub_one x, y, z)),
   (FaceDirection.Top, (x, y + 1, z)),
   (FaceDirection.Bottom, (x, usize_wrapping_sub_one y, z))]

/-- `ChunkMesher::should_render_face` from mesh.rs: out-of-bounds
neighbors are visible, otherwise only Air (or absent) neighbors are. -/
def should_render_face (chunk : Chunk) (neighbor_pos : Nat × Nat × Nat) : Bool :=
  if CHUNK_SIZE ≤ neighbor_pos.1 ∨ CHUNK_SIZE ≤ neighbor_pos.2.1 ∨
     CHUNK_SIZE ≤ neighbor_pos.2.2 then
    true
  else
    match chunk.get_voxel neighbor_pos.1 neighbor_pos.2.1 neighbor_pos.2.2 with
    | some VoxelType.Air => true
    | none => true
    | some _ => false

/-- `ChunkMesher::add_face` from mesh.rs: six vertices sharing the face
normal, pairing the position table with the atlas texture coordinates. -/
def ChunkMesher.add_face (m : ChunkMesher) (mesh : List Vertex) (x y z : ℚ)
    (direction : FaceDirection) (voxel : VoxelType) : List Vertex :=
  mesh ++ List.zipWith (fun pos uv => Vertex.mk pos uv direction.normal)
    (direction.vertices x y z) (m.texture_atlas.get_uvs voxel direction)

/-- `ChunkMesher::add_voxel_faces` from mesh.rs: append the quad of every
face whose neighbor passes the visibility test. -/
def ChunkMesher.add_voxel_faces (m : ChunkMesher) (mesh : List Vertex)
    (chunk : Chunk) (x y z : Nat) (voxel : VoxelType)
    (offset_x offset_y offset_z : ℚ) : List Vertex :=
  (voxel_faces x y z).foldl
    (fun mesh fd =>
      if should_render_face chunk fd.2 then
        m.add_face mesh ((x : ℚ) + offset_x) ((y : ℚ) + offset_y)
          ((z : ℚ) + offset_z) fd.1 voxel
      else mesh)
    mesh

/-- The world-space x offset `chunk_pos.x * CHUNK_SIZE` of a chunk, from
`ChunkMesher::generate_mesh`. -/
def mesh_offset_x (cp : ChunkPos) : ℚ := ((cp.x * (CHUNK_SIZE : Int) : Int) : ℚ)

/-- The world-space y offset of a chunk. -/
def mesh_offset_y (cp : ChunkPos) : ℚ := ((cp.y * (CHUNK_SIZE : Int) : Int) : ℚ)

/-- The world-space z offset of a chunk. -/
def mesh_offset_z (cp : ChunkPos) : ℚ := ((cp.z * (CHUNK_SIZE : Int) : Int) : ℚ)

/-- `ChunkMesher::generate_mesh` from mesh.rs: visit every cell of the
chunk in `z, y, x` order and emit faces of every non-Air voxel. -/
def ChunkMesher.generate_mesh (m : ChunkMesher) (chunk : Chunk)
    (chunk_pos : ChunkPos) : List Vertex :=
  let offset_x : ℚ := mesh_offset_x chunk_pos
  let offset_y : ℚ := mesh_offset_y chunk_pos
  let offset_z : ℚ := mesh_offset_z chunk_pos
  (List.range CHUNK_SIZE).foldl (fun mz (z : Nat) =>
    (List.range CHUNK_SIZE).foldl (fun my (y : Nat) =>
      (List.range CHUNK_SIZE).foldl (fun mx (x : Nat) =>
        match chunk.get_voxel x y z with
        | none => mx
        | some voxel =>
            if voxel = VoxelType.Air then mx
            else m.add_voxel_faces mx chunk x y z voxel offset_x offset_y offset_z)
        my) mz) []

/-- The vertices `generate_mesh` appends for one cell: nothing for Air,
otherwise the visible faces of the voxel. -/
def cell_contrib (m : ChunkMesher) (chunk : Chunk) (cp : ChunkPos)
    (x y z : Nat) : List Vertex :=
  match chunk.get_voxel x y z with
  | none => []
  | some voxel =>
      if voxel = VoxelType.Air then []
      else m.add_voxel_faces [] chunk x y z voxel
        (mesh_offset_x cp) (mesh_offset_y cp) (mesh_offset_z cp)

/-- Spec-side helper: the true (non-wrapping) integer neighbor one step
from a local coordinate in a face direction. -/
def neighbor_int (d : FaceDirection) (x y z : Int) : Int × Int × Int :=
  match d with
  | FaceDirection.North => (x, y, z + 1)
  | FaceDirection.South => (x, y, z - 1)
  | FaceDirection.East => (x + 1, y, z)
  | FaceDirection.West => (x - 1, y, z)
  | FaceDirection.Top => (x, y + 1, z)
  | FaceDirection.Bottom => (x, y - 1, z)

/-- Spec-side helper: membership of integer local coordinates in the
chunk bounds, the half-open cube from 0 to 16 on every axis. -/
def in_chunk_bounds (q : Int × Int × Int) : Prop :=
  0 ≤ q.1 ∧ q.1 < (CHUNK_SIZE : Int) ∧ 0 ≤ q.2.1 ∧ q.2.1 < (CHUNK_SIZE : Int) ∧
  0 ≤ q.2.2 ∧ q.2.2 < (CHUNK_SIZE : Int)

instance (q : Int × Int × Int) : Decidable (in_chunk_bounds q) := by
  unfold in_chunk_bounds
  infer_instance

instance (n : Int × Int × Int) : Decidable (is_unit_normal n) := by
  unfold is_unit_normal
  infer_instance

/-! ## Player physics, from src/game/player.rs -/

/-- The `Axis` enum from player.rs. -/
inductive Axis where
  | X
  | Y
  | Z
deriving DecidableEq, Repr

/-- `Player` struct from player.rs, over rational coordinates. -/
structure Player where
  position : ℚ × ℚ × ℚ
  velocity : ℚ × ℚ × ℚ
  width : ℚ
  height : ℚ
  is_on_ground : Bool
deriving DecidableEq, Repr

/-- `Player::new` from player.rs. -/
def Player.new (position : ℚ × ℚ × ℚ) : Player :=
  ⟨position, (0, 0, 0), 1 / 2, 9 / 5, false⟩

/-- `EPSILON` constant from `Player::resolve_collisions`. -/
def EPSILON : ℚ := 1 / 1000

/-- The player AABB faces, as computed in `Player::resolve_collisions`. -/
def player_min_x (p : Player) : ℚ := p.position.1 - p.width / 2

/-- Right face of the player AABB. -/
def player_max_x (p : Player) : ℚ := p.position.1 + p.width / 2

/-- Bottom face of the player AABB. -/
def player_min_y (p : Player) : ℚ := p.position.2.1 - p.height / 2

/-- Top face of the player AABB. -/
def player_max_y (p : Player) : ℚ := p.position.2.1 + p.height / 2

/-- Back face of the player AABB. -/
def player_min_z (p : Player) : ℚ := p.position.2.2 - p.width / 2

/-- Front face of the player AABB. -/
def player_max_z (p : Player) : ℚ := p.position.2.2 + p.width / 2

/-- The overlap test of `Player::resolve_collisions`: the player AABB and
the unit cube of voxel `(x, y, z)` overlap on all three axes. -/
def voxel_overlap (p : Player) (x y z : Int) : Prop :=
  (player_min_x p < (x : ℚ) + 1 ∧ player_max_x p > (x : ℚ)) ∧
  (player_min_y p < (y : ℚ) + 1 ∧ player_max_y p > (y : ℚ)) ∧
  (player_min_z p < (z : ℚ) + 1 ∧ player_max_z p > (z : ℚ))

instance (p : Player) (x y z : Int) : Decidable (voxel_overlap p x y z) := by
  unfold voxel_overlap
  infer_instance

/-- Penetration depth on the x axis, from `Player::resolve_collisions`. -/
def pen_x (p : Player) (x : Int) : ℚ :=
  min (player_max_x p - (x : ℚ)) (((x : ℚ) + 1) - player_min_x p)

/-- Penetration depth on the y axis. -/
def pen_y (p : Player) (y : Int) : ℚ :=
  min (player_max_y p - (y : ℚ)) (((y : ℚ) + 1) - player_min_y p)

/-- Penetration depth on the z axis. -/
def pen_z (p : Player) (z : Int) : ℚ :=
  min (player_max_z p - (z : ℚ)) (((z : ℚ) + 1) - player_min_z p)

/-- The body of the voxel scan loop in `Player::resolve_collisions`: skip
non-solid voxels and non-overlapping voxels; otherwise, when the active
axis has the minimal penetration, push the player out of the voxel on the
side with the smaller penetration (plus `EPSILON`) and zero that axis of
the velocity; an upward push sets the grounded flag. -/
def resolve_voxel (w : World) (axis : Axis) (p : Player) (x y z : Int) : Player :=
  if voxel_solid w x y z = false then p
  else if voxel_overlap p x y z then
    match axis with
    | Axis.X =>
        if pen_x p x ≤ pen_y p y ∧ pen_x p x ≤ pen_z p z then
          let pen_from_right := player_max_x p - (x : ℚ)
          let pen_from_left := ((x : ℚ) + 1) - player_min_x p
          if pen_from_right < pen_from_left then
            ⟨(p.position.1 - (pen_from_right + EPSILON), p.position.2.1, p.position.2.2),
             (0, p.velocity.2.1, p.velocity.2.2), p.width, p.height, p.is_on_ground⟩
          else
            ⟨(p.position.1 + (pen_from_left + EPSILON), p.position.2.1, p.position.2.2),
             (0, p.velocity.2.1, p.velocity.2.2), p.width, p.height, p.is_on_ground⟩
        else p
    | Axis.Y =>
        if pen_y p y ≤ pen_x p x ∧ pen_y p y ≤ pen_z p z then
          let pen_from_top := player_max_y p - (y : ℚ)
          let pen_from_bottom := ((y : ℚ) + 1) - player_min_y p
          if pen_from_top < pen_from_bottom then
            ⟨(p.position.1, p.position.2.1 - (pen_from_top + EPSILON), p.position.2.2),
             (p.velocity.1, 0, p.velocity.2.2), p.width, p.height, p.is_on_ground⟩
          else
            ⟨(p.position.1, p.position.2.1 + (pen_from_bottom + EPSILON), p.position.2.2),
             (p.velocity.1, 0, p.velocity.2.2), p.width, p.height, true⟩
        else p
    | Axis.Z =>
        if pen_z p z ≤ pen_x p x ∧ pen_z p z ≤ pen_y p y then
          let pen_from_front := player_max_z p - (z : ℚ)
          let pen_from_back := ((z : ℚ) + 1) - player_min_z p
          if pen_from_front < pen_from_back then
            ⟨(p.position.1, p.position.2.1, p.position.2.2 - (pen_from_front + EPSILON)),
             (p.velocity.1, p.velocity.2.1, 0), p.width, p.height, p.is_on_ground⟩
          else
            ⟨(p.position.1, p.position.2.1, p.position.2.2 + (pen_from_back + EPSILON)),
             (p.velocity.1, p.velocity.2.1, 0), p.width, p.height, p.is_on_ground⟩
        else p
  else p

/-- Rust inclusive integer range `a..=b` as a list. -/
def int_range (a b : Int) : List Int :=
  (List.range (b + 1 - a).toNat).map (fun i => a + (i : Int))

/-- `Player::resolve_collisions` from player.rs: scan every voxel in the
AABB-quantized range (computed once, before any correction) in the
`z, y, x` loop order and resolve each against the active axis. -/
def Player.resolve_collisions (p : Player) (w : World) (axis : Axis) : Player :=
  let min_x_voxel : Int := rat_floor (player_min_x p)
  let max_x_voxel : Int := rat_floor (player_max_x p)
  let min_y_voxel : Int := rat_floor (player_min_y p)
  let max_y_voxel : Int := rat_floor (player_max_y p)
  let min_z_voxel : Int := rat_floor (player_min_z p)
  let max_z_voxel : Int := rat_floor (player_max_z p)
  (int_range min_z_voxel max_z_voxel).foldl (fun pz z =>
    (int_range min_y_voxel max_y_voxel).foldl (fun py y =>
      (int_range min_x_voxel max_x_voxel).foldl (fun px x =>
        resolve_voxel w axis px x y z) py) pz) p

/-- `GRAVITY` constant from `Player::update`. -/
def GRAVITY : ℚ := -981 / 100

/-- `Player::update` from player.rs: clear the grounded flag, integrate
gravity into vertical velocity, then advance and resolve one axis at a
time in the fixed order X, Y, Z. -/
def Player.update (p : Player) (w : World) (dt : ℚ) : Player :=
  let p1 : Player := ⟨p.position, p.velocity, p.width, p.height, false⟩
  let p2 : Player := ⟨p1.position,
    (p1.velocity.1, p1.velocity.2.1 + GRAVITY * dt, p1.velocity.2.2),
    p1.width, p1.height, p1.is_on_ground⟩
  let dm : ℚ × ℚ × ℚ := (p2.velocity.1 * dt, p2.velocity.2.1 * dt, p2.velocity.2.2 * dt)
  let p3 : Player := ⟨(p2.position.1 + dm.1, p2.position.2.1, p2.position.2.2),
    p2.velocity, p2.width, p2.height, p2.is_on_ground⟩
  let p4 := p3.resolve_collisions w Axis.X
  let p5 : Player := ⟨(p4.position.1, p4.position.2.1 + dm.2.1, p4.position.2.2),
    p4.velocity, p4.width, p4.height, p4.is_on_ground⟩
  let p6 := p5.resolve_collisions w Axis.Y
  let p7 : Player := ⟨(p6.position.1, p6.position.2.1, p6.position.2.2 + dm.2.2),
    p6.velocity, p6.width, p6.height, p6.is_on_ground⟩
  p7.resolve_collisions w Axis.Z

/-! ## Concrete worlds and players used as test inputs -/

/-- A world with a single loaded, all-Air chunk at the origin. -/
def airWorld : World :=
  ⟨fun p => if p = ChunkPos.new 0 0 0 then some Chunk.new else none, []⟩

/-- A chunk whose only non-Air cell is Stone at local (0, 0, 0). -/
def stoneChunk : Chunk := Chunk.new.set_voxel 0 0 0 VoxelType.Stone

/-- A fully loaded world whose only solid voxel is Stone at (0, 0, 0). -/
def stoneWorld : World :=
  ⟨fun p => if p = ChunkPos.new 0 0 0 then some stoneChunk else some Chunk.new, []⟩

/-- A fully loaded world whose only solid voxel is Stone at (0, 0, -1). -/
def stoneZNegWorld : World :=
  ⟨fun p => if p = ChunkPos.new 0 0 (-1)
            then some (Chunk.new.set_voxel 0 0 15 VoxelType.Stone)
            else some Chunk.new, []⟩

/-- A world with only the origin chunk loaded, Stone at (0, 0, 0). -/
def groundWorld : World :=
  ⟨fun p => if p = ChunkPos.new 0 0 0 then some stoneChunk else none, []⟩

/-- A chunk whose only non-Air cell is Stone at the interior local
coordinate (8, 8, 8). -/
def stoneInteriorChunk : Chunk := Chunk.new.set_voxel 8 8 8 VoxelType.Stone

/-- A player overlapping the Stone voxel of `groundWorld` whose x-axis
penetration is not minimal. -/
def playerDeepOverlap : Player := ⟨(1 / 2, 7 / 5, 1 / 2), (1, 0, 0), 1 / 2, 9 / 5, false⟩

/-- A player overlapping the Stone voxel of `groundWorld` whose x-axis
penetration is minimal and smaller from the right. -/
def playerSideOverlap : Player := ⟨(11 / 10, 1 / 2, 1 / 2), (1, 0, 0), 1 / 2, 9 / 5, false⟩

/-- A player box resting exactly on top of the Stone voxel of
`groundWorld`, at rest. -/
def playerResting : Player := ⟨(1 / 2, 19 / 10, 1 / 2), (0, 0, 0), 1 / 2, 9 / 5, false⟩

/-- A world with only the origin chunk loaded, holding Dirt at world
coordinate (1, 2, 3). -/
def dirtWorld : World :=
  ⟨fun p => if p = ChunkPos.new 0 0 0
            then some (Chunk.new.set_voxel 1 2 3 VoxelType.Dirt)
            else none, []⟩

/-! # Helper lemmas -/

theorem local_coord_nonneg (v : Int) : 0 ≤ local_coord v := by
  unfold local_coord CHUNK_SIZE
  omega

theorem local_coord_lt (v : Int) : local_coord v < 16 := by
  unfold local_coord CHUNK_SIZE
  omega

theorem chunk_local_decompose (v : Int) :
    chunk_coord v * 16 + local_coord v = v := by
  unfold chunk_coord local_coord CHUNK_SIZE
  omega

theorem mark_dirty_chunks (w : World) (pos : ChunkPos) :
    (w.mark_dirty pos).chunks = w.chunks := by
  unfold World.mark_dirty
  split <;> rfl

theorem mark_dirty_nodup (w : World) (pos : ChunkPos) (h : w.dirty.Nodup) :
    (w.mark_dirty pos).dirty.Nodup := by
  by_cases hmem : pos ∈ w.dirty
  · simpa [World.mark_dirty, hmem] using h
  · simp [World.mark_dirty, hmem, List.nodup_cons, h]

theorem mark_dirty_mem (w : World) (pos : ChunkPos) :
    pos ∈ (w.mark_dirty pos).dirty := by
  by_cases hmem : pos ∈ w.dirty <;> simp [World.mark_dirty, hmem]

theorem load_chunk_chunks_ne (w : World) (pos p : ChunkPos) (h : p ≠ pos) :
    (w.load_chunk pos).chunks p = w.chunks p := by
  unfold World.load_chunk
  by_cases hl : (w.chunks pos).isSome
  · simp [hl]
  · simp [hl, mark_dirty_chunks, h]

theorem load_chunk_chunks_self_of_some (w : World) (pos : ChunkPos) (c : Chunk)
    (h : w.chunks pos = some c) : (w.load_chunk pos).chunks pos = some c := by
  unfold World.load_chunk
  simp [h]

theorem load_chunk_chunks_self_of_none (w : World) (pos : ChunkPos)
    (h : w.chunks pos = none) :
    (w.load_chunk pos).chunks pos = some (World.generate_chunk pos) := by
  unfold World.load_chunk
  simp [h, mark_dirty_chunks]

theorem load_chunk_dirty_nodup (w : World) (pos : ChunkPos) (h : w.dirty.Nodup) :
    (w.load_chunk pos).dirty.Nodup := by
  unfold World.load_chunk
  by_cases hl : (w.chunks pos).isSome
  · simpa [hl] using h
  · simp only [hl, Bool.false_eq_true, if_false]
    exact mark_dirty_nodup _ _ h

theorem set_voxel_chunks_ne (w : World) (wx wy wz : Int) (t : VoxelType)
    (p : ChunkPos) (h : p ≠ owner_pos wx wy wz) :
    (w.set_voxel wx wy wz t).chunks p = w.chunks p := by
  simp only [World.set_voxel]
  cases hm : (w.load_chunk (owner_pos wx wy wz)).chunks (owner_pos wx wy wz) with
  | none => simp [hm, mark_dirty_chunks, load_chunk_chunks_ne w _ p h]
  | some c => simp [hm, mark_dirty_chunks, h, load_chunk_chunks_ne w _ p h]

theorem set_voxel_chunks_self_of_some (w : World) (wx wy wz : Int) (t : VoxelType)
    (c : Chunk) (h : w.chunks (owner_pos wx wy wz) = some c) :
    (w.set_voxel wx wy wz t).chunks (owner_pos wx wy wz) =
      some (c.set_voxel (local_coord wx).toNat (local_coord wy).toNat
        (local_coord wz).toNat t) := by
  simp only [World.set_voxel]
  have hl := load_chunk_chunks_self_of_some w _ c h
  simp [hl, mark_dirty_chunks]

theorem set_voxel_chunks_self_of_none (w : World) (wx wy wz : Int) (t : VoxelType)
    (h : w.chunks (owner_pos wx wy wz) = none) :
    (w.set_voxel wx wy wz t).chunks (owner_pos wx wy wz) =
      some ((World.generate_chunk (owner_pos wx wy wz)).set_voxel
        (local_coord wx).toNat (local_coord wy).toNat (local_coord wz).toNat t) := by
  simp only [World.set_voxel]
  have hl := load_chunk_chunks_self_of_none w _ h
  simp [hl, mark_dirty_chunks]

theorem set_voxel_chunks_self_isSome (w : World) (wx wy wz : Int) (t : VoxelType) :
    ((w.set_voxel wx wy wz t).chunks (owner_pos wx wy wz)).isSome := by
  cases h : w.chunks (owner_pos wx wy wz) with
  | none => simp [set_voxel_chunks_self_of_none w wx wy wz t h]
  | some c => simp [set_voxel_chunks_self_of_some w wx wy wz t c h]

theorem set_voxel_get (w : World) (wx wy wz : Int) (t : VoxelType) :
    (w.set_voxel wx wy wz t).get_voxel wx wy wz = some t := by
  cases h : w.chunks (owner_pos wx wy wz) with
  | none =>
      simp [World.get_voxel, set_voxel_chunks_self_of_none w wx wy wz t h,
        Chunk.get_voxel, Chunk.set_voxel]
  | some c =>
      simp [World.get_voxel, set_voxel_chunks_self_of_some w wx wy wz t c h,
        Chunk.get_voxel, Chunk.set_voxel]

theorem set_voxel_dirty_nodup (w : World) (wx wy wz : Int) (t : VoxelType)
    (h : w.dirty.Nodup) : (w.set_voxel wx wy wz t).dirty.Nodup := by
  simp only [World.set_voxel]
  have h1 := load_chunk_dirty_nodup w (owner_pos wx wy wz) h
  cases hm : (w.load_chunk (owner_pos wx wy wz)).chunks (owner_pos wx wy wz) with
  | none =>
      simp only [hm]
      exact mark_dirty_nodup _ _ h1
  | some c =>
      simp only [hm]
      exact mark_dirty_nodup _ _ h1

theorem set_voxel_dirty_mem (w : World) (wx wy wz : Int) (t : VoxelType) :
    owner_pos wx wy wz ∈ (w.set_voxel wx wy wz t).dirty := by
  simp only [World.set_voxel]
  cases hm : (w.load_chunk (owner_pos wx wy wz)).chunks (owner_pos wx wy wz) with
  | none =>
      simp only [hm]
      exact mark_dirty_mem _ (owner_pos wx wy wz)
  | some c =>
      simp only [hm]
      exact mark_dirty_mem _ (owner_pos wx wy wz)

theorem get_chunk_index_inj (a b c d e f : Nat)
    (ha : a < 16) (hb : b < 16) (hc : c < 16)
    (hd : d < 16) (he : e < 16) (hf : f < 16)
    (h : get_chunk_index a b c = get_chunk_index d e f) :
    a = d ∧ b = e ∧ c = f := by
  unfold get_chunk_index CHUNK_SIZE at h
  omega

/-! # Claims -/

/-- C1. Dirty-chunk hand-off: after `set_voxel(wx,wy,wz,t)` on a world
whose dirty set is duplicate-free (the invariant every reachable world
satisfies), `get_voxel` at the same coordinate returns `t`, the owning
chunk coordinate appears exactly once in the drained dirty sequence even
if other voxels of that chunk were written before, and draining twice
yields an empty second sequence. -/
theorem dirty_chunk_handoff (w : World) (wx wy wz : Int) (t : VoxelType)
    (hnd : w.dirty.Nodup) :
    (w.set_voxel wx wy wz t).get_voxel wx wy wz = some t ∧
    (w.set_voxel wx wy wz t).take_dirty_chunks.1.count (owner_pos wx wy wz) = 1 ∧
    (w.set_voxel wx wy wz t).dirty.Nodup ∧
    (w.set_voxel wx wy wz t).take_dirty_chunks.2.take_dirty_chunks.1 = [] := by
  refine ⟨set_voxel_get w wx wy wz t, ?_, set_voxel_dirty_nodup w wx wy wz t hnd, rfl⟩
  exact List.count_eq_one_of_mem (set_voxel_dirty_nodup w wx wy wz t hnd)
    (set_voxel_dirty_mem w wx wy wz t)

/-- Witness for C1 at the empty world, writing Stone at (0,0,0). -/
theorem dirty_chunk_handoff_witness :
    World.new.dirty.Nodup ∧
    ((World.new.set_voxel 0 0 0 VoxelType.Stone).get_voxel 0 0 0 =
        some VoxelType.Stone ∧
      (World.new.set_voxel 0 0 0 VoxelType.Stone).take_dirty_chunks.1.count
          (owner_pos 0 0 0) = 1 ∧
      (World.new.set_voxel 0 0 0 VoxelType.Stone).dirty.Nodup ∧
      (World.new.set_voxel 0 0 0
          VoxelType.Stone).take_dirty_chunks.2.take_dirty_chunks.1 = []) :=
  ⟨List.nodup_nil, dirty_chunk_handoff World.new 0 0 0 VoxelType.Stone List.nodup_nil⟩

/-- C2. Coordinate round-trip: for every integer world coordinate, the
chunk coordinate (Euclidean floor division by 16) times 16 plus the local
coordinate (Euclidean remainder) recovers the coordinate, and the local
coordinate lies in the half-open range from 0 to 16. -/
theorem coordinate_round_trip (w : Int) :
    chunk_coord w * (CHUNK_SIZE : Int) + local_coord w = w ∧
    0 ≤ local_coord w ∧ local_coord w < (CHUNK_SIZE : Int) := by
  unfold chunk_coord local_coord CHUNK_SIZE
  omega

/-- C3. Absent versus Air: `World::get_voxel` returns `none` exactly when
the owning chunk is not in the chunk map, and on a loaded chunk it returns
the stored voxel (so a stored Air cell is a present `some Air`). -/
theorem absent_versus_air (w : World) (wx wy wz : Int) :
    (w.get_voxel wx wy wz = none ↔ w.chunks (owner_pos wx wy wz) = none) ∧
    (∀ c : Chunk, w.chunks (owner_pos wx wy wz) = some c →
      w.get_voxel wx wy wz =
        some (c.voxels (get_chunk_index (local_coord wx).toNat
          (local_coord wy).toNat (local_coord wz).toNat))) := by
  constructor
  · cases h : w.chunks (owner_pos wx wy wz) <;>
      simp [World.get_voxel, Chunk.get_voxel, h]
  · intro c hc
    simp [World.get_voxel, Chunk.get_voxel, hc]

/-- Witness for C3: a loaded all-Air chunk reports its Air voxel as
present, not absent. -/
theorem absent_versus_air_witness :
    airWorld.chunks (owner_pos 1 2 3) = some Chunk.new ∧
    airWorld.get_voxel 1 2 3 =
      some (Chunk.new.voxels (get_chunk_index (local_coord 1).toNat
        (local_coord 2).toNat (local_coord 3).toNat)) ∧
    Chunk.new.voxels (get_chunk_index (local_coord 1).toNat
      (local_coord 2).toNat (local_coord 3).toNat) = VoxelType.Air :=
  ⟨rfl, (absent_versus_air airWorld 1 2 3).2 Chunk.new rfl, rfl⟩

/-- C10. Frame property of `set_voxel`: any other readable coordinate is
unchanged, no chunk is removed, chunks other than the owner are untouched,
and the owner is the freshly generated chunk (populated before the write)
when it was absent, or the previously loaded chunk, with only the target
cell overwritten. -/
theorem set_voxel_frame (w : World) (wx wy wz : Int) (t : VoxelType) :
    (∀ ax ay az : Int, ¬(ax = wx ∧ ay = wy ∧ az = wz) →
      w.get_voxel ax ay az ≠ none →
      (w.set_voxel wx wy wz t).get_voxel ax ay az = w.get_voxel ax ay az) ∧
    (∀ p : ChunkPos, p ≠ owner_pos wx wy wz →
      (w.set_voxel wx wy wz t).chunks p = w.chunks p) ∧
    (∀ p : ChunkPos, w.chunks p ≠ none → (w.set_voxel wx wy wz t).chunks p ≠ none) ∧
    (w.chunks (owner_pos wx wy wz) = none →
      (w.set_voxel wx wy wz t).chunks (owner_pos wx wy wz) =
        some ((World.generate_chunk (owner_pos wx wy wz)).set_voxel
          (local_coord wx).toNat (local_coord wy).toNat (local_coord wz).toNat t)) ∧
    (∀ c : Chunk, w.chunks (owner_pos wx wy wz) = some c →
      (w.set_voxel wx wy wz t).chunks (owner_pos wx wy wz) =
        some (c.set_voxel (local_coord wx).toNat (local_coord wy).toNat
          (local_coord wz).toNat t)) := by
  refine ⟨?_, set_voxel_chunks_ne w wx wy wz t, ?_, ?_, ?_⟩
  · intro ax ay az hne hread
    by_cases hp : owner_pos ax ay az = owner_pos wx wy wz
    · -- same owning chunk: the write lands on a different flat index
      cases hc : w.chunks (owner_pos ax ay az) with
      | none => simp [World.get_voxel, hc] at hread
      | some c =>
          have hcw : w.chunks (owner_pos wx wy wz) = some c := hp ▸ hc
          have hset := set_voxel_chunks_self_of_some w wx wy wz t c hcw
          have hpair : owner_pos ax ay az = owner_pos wx wy wz ∧ True := ⟨hp, trivial⟩
          have hidx : get_chunk_index (local_coord ax).toNat (local_coord ay).toNat
              (local_coord az).toNat ≠
              get_chunk_index (local_coord wx).toNat (local_coord wy).toNat
              (local_coord wz).toNat := by
            intro heq
            have h1 := chunk_local_decompose ax
            have h2 := chunk_local_decompose ay
            have h3 := chunk_local_decompose az
            have h4 := chunk_local_decompose wx
            have h5 := chunk_local_decompose wy
            have h6 := chunk_local_decompose wz
            have hb1 := local_coord_nonneg ax
            have hb2 := local_coord_nonneg ay
            have hb3 := local_coord_nonneg az
            have hb4 := local_coord_nonneg wx
            have hb5 := local_coord_nonneg wy
            have hb6 := local_coord_nonneg wz
            have hl1 := local_coord_lt ax
            have hl2 := local_coord_lt ay
            have hl3 := local_coord_lt az
            have hl4 := local_coord_lt wx
            have hl5 := local_coord_lt wy
            have hl6 := local_coord_lt wz
            have hco : chunk_coord ax = chunk_coord wx ∧ chunk_coord ay = chunk_coord wy ∧
                chunk_coord az = chunk_coord wz := by
              have := hp
              simp only [owner_pos, ChunkPos.new, ChunkPos.mk.injEq] at this
              exact ⟨this.1, this.2.1, this.2.2⟩
            unfold get_chunk_index CHUNK_SIZE at heq
            omega
          rw [show (w.set_voxel wx wy wz t).get_voxel ax ay az =
              match (w.set_voxel wx wy wz t).chunks (owner_pos ax ay az) with
              | none => none
              | some c => c.get_voxel (local_coord ax).toNat (local_coord ay).toNat
                  (local_coord az).toNat from rfl]
          rw [hp, hset]
          simp [World.get_voxel, hc, Chunk.get_voxel, Chunk.set_voxel, hidx]
    · simp [World.get_voxel, set_voxel_chunks_ne w wx wy wz t _ hp]
  · intro p hread
    by_cases hp : p = owner_pos wx wy wz
    · subst hp
      have := set_voxel_chunks_self_isSome w wx wy wz t
      intro hnone
      rw [hnone] at this
      simp at this
    · rw [set_voxel_chunks_ne w wx wy wz t p hp]
      exact hread
  · exact set_voxel_chunks_self_of_none w wx wy wz t
  · exact fun c => set_voxel_chunks_self_of_some w wx wy wz t c

/-- Witness for C10: writing Stone at (0,0,0) in a world whose origin
chunk holds Dirt at (1,2,3) leaves the Dirt cell readable and unchanged. -/
theorem set_voxel_frame_witness :
    (¬((1 : Int) = 0 ∧ (2 : Int) = 0 ∧ (3 : Int) = 0)) ∧
    dirtWorld.get_voxel 1 2 3 ≠ none ∧
    (dirtWorld.set_voxel 0 0 0 VoxelType.Stone).get_voxel 1 2 3 =
      dirtWorld.get_voxel 1 2 3 :=
  ⟨by decide, by decide,
    (set_voxel_frame dirtWorld 0 0 0 VoxelType.Stone).1 1 2 3 (by decide) (by decide)⟩

/-! ## Raycast traversal lemmas -/

theorem raycast_loop_mono (w : World) (p : RayParams) (M1 M2 : ℚ) (h : M1 ≤ M2) :
    ∀ (n : Nat) (s : RayState) (hit : RaycastHit),
      raycast_loop w p M1 n s = some hit → raycast_loop w p M2 n s = some hit := by
  intro n
  induction n with
  | zero =>
      intro s hit hr
      simp [raycast_loop] at hr
  | succ n ih =>
      intro s hit hr
      by_cases hs : voxel_solid w s.voxel_x s.voxel_y s.voxel_z = true
      · simp only [raycast_loop, hs, if_true] at hr ⊢
        exact hr
      · by_cases hd : (raycast_step p s).distance > M1
        · simp [raycast_loop, hs, hd] at hr
        · have hd2 : ¬((raycast_step p s).distance > M2) := fun hgt =>
            hd (lt_of_le_of_lt h hgt)
          simp only [raycast_loop, hs, if_false, Bool.false_eq_true, hd, hd2,
            if_neg] at hr ⊢
          exact ih _ _ hr

theorem raycast_step_x (p : RayParams) (s : RayState)
    (c1 : s.t_max_x < s.t_max_y ∧ s.t_max_x < s.t_max_z) :
    raycast_step p s =
      ⟨s.voxel_x + p.step_x, s.voxel_y, s.voxel_z,
       s.t_max_x + p.t_delta_x, s.t_max_y, s.t_max_z,
       (-p.step_x, 0, 0), s.t_max_x⟩ := by
  simp only [raycast_step]
  rw [if_pos c1]

theorem raycast_step_y (p : RayParams) (s : RayState)
    (c1 : ¬(s.t_max_x < s.t_max_y ∧ s.t_max_x < s.t_max_z))
    (c2 : s.t_max_y < s.t_max_z) :
    raycast_step p s =
      ⟨s.voxel_x, s.voxel_y + p.step_y, s.voxel_z,
       s.t_max_x, s.t_max_y + p.t_delta_y, s.t_max_z,
       (0, -p.step_y, 0), s.t_max_y⟩ := by
  simp only [raycast_step]
  rw [if_neg c1, if_pos c2]

theorem raycast_step_z (p : RayParams) (s : RayState)
    (c1 : ¬(s.t_max_x < s.t_max_y ∧ s.t_max_x < s.t_max_z))
    (c2 : ¬(s.t_max_y < s.t_max_z)) :
    raycast_step p s =
      ⟨s.voxel_x, s.voxel_y, s.voxel_z + p.step_z,
       s.t_max_x, s.t_max_y, s.t_max_z + p.t_delta_z,
       (0, 0, -p.step_z), s.t_max_z⟩ := by
  simp only [raycast_step]
  rw [if_neg c1, if_neg c2]

theorem raycast_step_normal_unit (p : RayParams) (s : RayState)
    (hx : p.step_x = 1 ∨ p.step_x = -1) (hy : p.step_y = 1 ∨ p.step_y = -1)
    (hz : p.step_z = 1 ∨ p.step_z = -1) :
    is_unit_normal (raycast_step p s).last_normal := by
  by_cases c1 : s.t_max_x < s.t_max_y ∧ s.t_max_x < s.t_max_z
  · rw [raycast_step_x p s c1]
    rcases hx with hx | hx <;> simp [hx, is_unit_normal]
  · by_cases c2 : s.t_max_y < s.t_max_z
    · rw [raycast_step_y p s c1 c2]
      rcases hy with hy | hy <;> simp [hy, is_unit_normal]
    · rw [raycast_step_z p s c1 c2]
      rcases hz with hz | hz <;> simp [hz, is_unit_normal]

theorem raycast_loop_normal_inv (w : World) (p : RayParams) (M : ℚ)
    (hx : p.step_x = 1 ∨ p.step_x = -1) (hy : p.step_y = 1 ∨ p.step_y = -1)
    (hz : p.step_z = 1 ∨ p.step_z = -1) (v0x v0y v0z : Int) :
    ∀ (n : Nat) (s : RayState) (hit : RaycastHit),
      (is_unit_normal s.last_normal ∨
        (s.last_normal = (0, 0, 0) ∧ s.distance = 0 ∧
          s.voxel_x = v0x ∧ s.voxel_y = v0y ∧ s.voxel_z = v0z)) →
      raycast_loop w p M n s = some hit →
      (is_unit_normal hit.normal ∨
        (hit.normal = (0, 0, 0) ∧ hit.distance = 0 ∧
          hit.position = (v0x, v0y, v0z))) := by
  intro n
  induction n with
  | zero =>
      intro s hit _ hr
      simp [raycast_loop] at hr
  | succ n ih =>
      intro s hit hinv hr
      by_cases hs : voxel_solid w s.voxel_x s.voxel_y s.voxel_z = true
      · simp only [raycast_loop, hs, if_true, Option.some.injEq] at hr
        subst hr
        rcases hinv with hu | ⟨hn0, hd0, hvx, hvy, hvz⟩
        · exact Or.inl hu
        · exact Or.inr ⟨hn0, hd0, by simp [hvx, hvy, hvz]⟩
      · by_cases hd : (raycast_step p s).distance > M
        · simp [raycast_loop, hs, hd] at hr
        · simp only [raycast_loop, hs, if_false, Bool.false_eq_true, hd,
            if_neg] at hr
          exact ih _ _ (Or.inl (raycast_step_normal_unit p s hx hy hz)) hr

theorem raycast_loop_zero_x (w : World) (p : RayParams) (M : ℚ)
    (hM : M < f32_MAX) :
    ∀ (n : Nat) (s : RayState) (hit : RaycastHit),
      s.t_max_x = f32_MAX → s.last_normal.1 = 0 →
      raycast_loop w p M n s = some hit →
      hit.position.1 = s.voxel_x ∧ hit.normal.1 = 0 := by
  intro n
  induction n with
  | zero =>
      intro s hit _ _ hr
      simp [raycast_loop] at hr
  | succ n ih =>
      intro s hit htm hn0 hr
      by_cases hs : voxel_solid w s.voxel_x s.voxel_y s.voxel_z = true
      · simp only [raycast_loop, hs, if_true, Option.some.injEq] at hr
        subst hr
        exact ⟨rfl, hn0⟩
      · by_cases c1 : s.t_max_x < s.t_max_y ∧ s.t_max_x < s.t_max_z
        · -- the x axis steps: the traversal breaks at the sentinel distance
          have hd : (raycast_step p s).distance > M := by
            rw [raycast_step_x p s c1]
            simpa [htm] using hM
          simp [raycast_loop, hs, hd] at hr
        · by_cases c2 : s.t_max_y < s.t_max_z
          · by_cases hd : (raycast_step p s).distance > M
            · simp [raycast_loop, hs, hd] at hr
            · simp only [raycast_loop, hs, if_false, Bool.false_eq_true, hd,
                if_neg] at hr
              have hrec := ih _ hit (by rw [raycast_step_y p s c1 c2]; exact htm)
                (by rw [raycast_step_y p s c1 c2]) hr
              rw [show (raycast_step p s).voxel_x = s.voxel_x from by
                rw [raycast_step_y p s c1 c2]] at hrec
              exact hrec
          · by_cases hd : (raycast_step p s).distance > M
            · simp [raycast_loop, hs, hd] at hr
            · simp only [raycast_loop, hs, if_false, Bool.false_eq_true, hd,
                if_neg] at hr
              have hrec := ih _ hit (by rw [raycast_step_z p s c1 c2]; exact htm)
                (by rw [raycast_step_z p s c1 c2]) hr
              rw [show (raycast_step p s).voxel_x = s.voxel_x from by
                rw [raycast_step_z p s c1 c2]] at hrec
              exact hrec

theorem raycast_loop_zero_y (w : World) (p : RayParams) (M : ℚ)
    (hM : M < f32_MAX) :
    ∀ (n : Nat) (s : RayState) (hit : RaycastHit),
      s.t_max_y = f32_MAX → s.last_normal.2.1 = 0 →
      raycast_loop w p M n s = some hit →
      hit.position.2.1 = s.voxel_y ∧ hit.normal.2.1 = 0 := by
  intro n
  induction n with
  | zero =>
      intro s hit _ _ hr
      simp [raycast_loop] at hr
  | succ n ih =>
      intro s hit htm hn0 hr
      by_cases hs : voxel_solid w s.voxel_x s.voxel_y s.voxel_z = true
      · simp only [raycast_loop, hs, if_true, Option.some.injEq] at hr
        subst hr
        exact ⟨rfl, hn0⟩
      · by_cases c1 : s.t_max_x < s.t_max_y ∧ s.t_max_x < s.t_max_z
        · by_cases hd : (raycast_step p s).distance > M
          · simp [raycast_loop, hs, hd] at hr
          · simp only [raycast_loop, hs, if_false, Bool.false_eq_true, hd,
              if_neg] at hr
            have hrec := ih _ hit (by rw [raycast_step_x p s c1]; exact htm)
              (by rw [raycast_step_x p s c1]) hr
            rw [show (raycast_step p s).voxel_y = s.voxel_y from by
              rw [raycast_step_x p s c1]] at hrec
            exact hrec
        · by_cases c2 : s.t_max_y < s.t_max_z
          · -- the y axis steps: the traversal breaks at the sentinel distance
            have hd : (raycast_step p s).distance > M := by
              rw [raycast_step_y p s c1 c2]
              simpa [htm] using hM
            simp [raycast_loop, hs, hd] at hr
          · by_cases hd : (raycast_step p s).distance > M
            · simp [raycast_loop, hs, hd] at hr
            · simp only [raycast_loop, hs, if_false, Bool.false_eq_true, hd,
                if_neg] at hr
              have hrec := ih _ hit (by rw [raycast_step_z p s c1 c2]; exact htm)
                (by rw [raycast_step_z p s c1 c2]) hr
              rw [show (raycast_step p s).voxel_y = s.voxel_y from by
                rw [raycast_step_z p s c1 c2]] at hrec
              exact hrec

theorem raycast_loop_zero_z (w : World) (p : RayParams) (M : ℚ)
    (hM : M < f32_MAX) :
    ∀ (n : Nat) (s : RayState) (hit : RaycastHit),
      s.t_max_z = f32_MAX → s.last_normal.2.2 = 0 →
      raycast_loop w p M n s = some hit →
      hit.position.2.2 = s.voxel_z ∧ hit.normal.2.2 = 0 := by
  intro n
  induction n with
  | zero =>
      intro s hit _ _ hr
      simp [raycast_loop] at hr
  | succ n ih =>
      intro s hit htm hn0 hr
      by_cases hs : voxel_solid w s.voxel_x s.voxel_y s.voxel_z = true
      · simp only [raycast_loop, hs, if_true, Option.some.injEq] at hr
        subst hr
        exact ⟨rfl, hn0⟩
      · by_cases c1 : s.t_max_x < s.t_max_y ∧ s.t_max_x < s.t_max_z
        · by_cases hd : (raycast_step p s).distance > M
          · simp [raycast_loop, hs, hd] at hr
          · simp only [raycast_loop, hs, if_false, Bool.false_eq_true, hd,
              if_neg] at hr
            have hrec := ih _ hit (by rw [raycast_step_x p s c1]; exact htm)
              (by rw [raycast_step_x p s c1]) hr
            rw [show (raycast_step p s).voxel_z = s.voxel_z from by
              rw [raycast_step_x p s c1]] at hrec
            exact hrec
        · by_cases c2 : s.t_max_y < s.t_max_z
          · by_cases hd : (raycast_step p s).distance > M
            · simp [raycast_loop, hs, hd] at hr
            · simp only [raycast_loop, hs, if_false, Bool.false_eq_true, hd,
                if_neg] at hr
              have hrec := ih _ hit (by rw [raycast_step_y p s c1 c2]; exact htm)
                (by rw [raycast_step_y p s c1 c2]) hr
              rw [show (raycast_step p s).voxel_z = s.voxel_z from by
                rw [raycast_step_y p s c1 c2]] at hrec
              exact hrec
          · -- the z axis steps: the traversal breaks at the sentinel distance
            have hd : (raycast_step p s).distance > M := by
              rw [raycast_step_z p s c1 c2]
              simpa [htm] using hM
            simp [raycast_loop, hs, hd] at hr

section

set_option allowUnsafeReducibility true
attribute [local semireducible] Rat.add Rat.sub Rat.mul Rat.div Rat.neg Rat.inv
attribute [local semireducible] Rat.blt Rat.normalize Rat.maybeNormalize mkRat
set_option maxRecDepth 100000

/-- C5. Raycast reference scenario: in a world whose only solid voxel is
Stone at (0,0,0), the ray from (0.5, 0.5, -5) along (0,0,1) with any
maximum distance of at least 5 hits (0,0,0) with normal (0,0,-1) at
distance 5, and the same ray capped at 4 misses. -/
theorem raycast_reference_scenario (M : ℚ) (h5 : 5 ≤ M) :
    raycast_voxel stoneWorld (1 / 2, 1 / 2, -5) (0, 0, 1) M =
      some ⟨(0, 0, 0), (0, 0, -1), 5⟩ ∧
    raycast_voxel stoneWorld (1 / 2, 1 / 2, -5) (0, 0, 1) 4 = none := by
  constructor
  · have base : raycast_voxel stoneWorld (1 / 2, 1 / 2, -5) (0, 0, 1) 5 =
        some ⟨(0, 0, 0), (0, 0, -1), 5⟩ := by decide
    simp only [raycast_voxel] at base ⊢
    exact raycast_loop_mono stoneWorld _ 5 M h5 100 _ _ base
  · decide

/-- Witness for C5 at maximum distance exactly 5. -/
theorem raycast_reference_scenario_witness :
    raycast_voxel stoneWorld (1 / 2, 1 / 2, -5) (0, 0, 1) 5 =
      some ⟨(0, 0, 0), (0, 0, -1), 5⟩ ∧
    raycast_voxel stoneWorld (1 / 2, 1 / 2, -5) (0, 0, 1) 4 = none :=
  raycast_reference_scenario 5 (le_refl 5)

/-- C6 (amended). Raycast hit normal shape: a returned face normal has
exactly one component equal to plus or minus one and the others zero,
except when the very first cell examined (the cell containing the ray
origin) is already solid, in which case the hit carries the initial zero
normal, distance zero, and the origin cell itself. -/
theorem raycast_hit_normal_shape (w : World) (o d : ℚ × ℚ × ℚ) (M : ℚ)
    (hit : RaycastHit) (h : raycast_voxel w o d M = some hit) :
    is_unit_normal hit.normal ∨
      (hit.normal = (0, 0, 0) ∧ hit.distance = 0 ∧
        hit.position = (rat_floor o.1, rat_floor o.2.1, rat_floor o.2.2)) := by
  simp only [raycast_voxel] at h
  refine raycast_loop_normal_inv w _ M ?_ ?_ ?_ (rat_floor o.1) (rat_floor o.2.1)
    (rat_floor o.2.2) 100 _ hit ?_ h
  · by_cases hd : d.1 > 0 <;> simp [hd]
  · by_cases hd : d.2.1 > 0 <;> simp [hd]
  · by_cases hd : d.2.2 > 0 <;> simp [hd]
  · exact Or.inr ⟨rfl, rfl, rfl, rfl, rfl⟩

/-- Counterexample to C6 as stated: a ray starting inside the solid voxel
returns a hit whose normal is the zero triple, which has no component
equal to plus or minus one. -/
theorem raycast_hit_normal_shape_cex :
    raycast_voxel stoneWorld (1 / 2, 1 / 2, 1 / 2) (0, 0, 1) 5 =
      some ⟨(0, 0, 0), (0, 0, 0), 0⟩ ∧
    ¬ is_unit_normal (0, 0, 0) :=
  ⟨by decide, by decide⟩

/-- Witness for C6: the reference hit away from the origin cell has a
proper unit normal. -/
theorem raycast_hit_normal_shape_witness :
    is_unit_normal (RaycastHit.mk (0, 0, 0) (0, 0, -1) 5).normal ∨
      ((RaycastHit.mk (0, 0, 0) (0, 0, -1) 5).normal = (0, 0, 0) ∧
        (RaycastHit.mk (0, 0, 0) (0, 0, -1) 5).distance = 0 ∧
        (RaycastHit.mk (0, 0, 0) (0, 0, -1) 5).position =
          (rat_floor (1 / 2 : ℚ), rat_floor (1 / 2 : ℚ), rat_floor (-5 : ℚ))) :=
  raycast_hit_normal_shape stoneWorld (1 / 2, 1 / 2, -5) (0, 0, 1) 5
    ⟨(0, 0, 0), (0, 0, -1), 5⟩ (by decide)

/-- C7 (amended). Raycast zero-component safety: a zero direction
component gets the unreachable sentinel `f32::MAX` as its crossing
distance (no division is attempted on it), and as long as the maximum
range is below that sentinel, a returned hit never moved off the origin
cell along that axis and its normal is zero on that axis.  (With a
maximum range at or above the sentinel, the sentinel distance itself
becomes reachable and the traversal can step along the zero axis, as the
counterexample shows.) -/
theorem raycast_zero_axis (w : World) (o d : ℚ × ℚ × ℚ) (M : ℚ)
    (hM : M < f32_MAX) :
    t_delta_of 0 = f32_MAX ∧
    (d.1 = 0 → ∀ hit : RaycastHit, raycast_voxel w o d M = some hit →
      hit.position.1 = rat_floor o.1 ∧ hit.normal.1 = 0) ∧
    (d.2.1 = 0 → ∀ hit : RaycastHit, raycast_voxel w o d M = some hit →
      hit.position.2.1 = rat_floor o.2.1 ∧ hit.normal.2.1 = 0) ∧
    (d.2.2 = 0 → ∀ hit : RaycastHit, raycast_voxel w o d M = some hit →
      hit.position.2.2 = rat_floor o.2.2 ∧ hit.normal.2.2 = 0) := by
  refine ⟨by simp [t_delta_of], ?_, ?_, ?_⟩
  · intro h0 hit hr
    simp only [raycast_voxel] at hr
    exact raycast_loop_zero_x w _ M hM 100 _ hit (by simp [h0]) rfl hr
  · intro h0 hit hr
    simp only [raycast_voxel] at hr
    exact raycast_loop_zero_y w _ M hM 100 _ hit (by simp [h0]) rfl hr
  · intro h0 hit hr
    simp only [raycast_voxel] at hr
    exact raycast_loop_zero_z w _ M hM 100 _ hit (by simp [h0]) rfl hr

/-- Counterexample to C7 as stated ("the traversal never steps along that
axis"): with the z direction component exactly zero but a maximum range
reaching the `f32::MAX` sentinel, the traversal does step along z and
hits (0,0,-1), one cell below the origin cell in z, with a z normal. -/
theorem raycast_zero_axis_cex :
    ((0 : ℚ), 1 / 2 ^ 130, (0 : ℚ)).2.2 = 0 ∧
    raycast_voxel stoneZNegWorld (1 / 2, 1 / 2, 1 / 2) (0, 1 / 2 ^ 130, 0)
      (2 ^ 128) = some ⟨(0, 0, -1), (0, 0, 1), f32_MAX⟩ ∧
    rat_floor (1 / 2 : ℚ) = 0 ∧ ((-1 : Int) ≠ 0) ∧ ((1 : Int) ≠ 0) :=
  ⟨rfl, by decide, by decide, by decide, by decide⟩

/-- Witness for C7: the reference z-axis ray has zero x and y components
and its hit indeed stays on the origin cell in x and y. -/
theorem raycast_zero_axis_witness :
    (5 : ℚ) < f32_MAX ∧
    ((RaycastHit.mk (0, 0, 0) (0, 0, -1) 5).position.1 = rat_floor (1 / 2 : ℚ) ∧
      (RaycastHit.mk (0, 0, 0) (0, 0, -1) 5).normal.1 = 0) :=
  ⟨by decide,
    (raycast_zero_axis stoneWorld (1 / 2, 1 / 2, -5) (0, 0, 1) 5 (by decide)).2.1
      rfl ⟨(0, 0, 0), (0, 0, -1), 5⟩ (by decide)⟩

end

/-! ## Player physics lemmas -/

theorem resolve_voxel_x_flag (w : World) (p : Player) (x y z : Int) :
    (resolve_voxel w Axis.X p x y z).is_on_ground = p.is_on_ground := by
  simp only [resolve_voxel]
  split_ifs <;> rfl

theorem resolve_voxel_z_flag (w : World) (p : Player) (x y z : Int) :
    (resolve_voxel w Axis.Z p x y z).is_on_ground = p.is_on_ground := by
  simp only [resolve_voxel]
  split_ifs <;> rfl

theorem foldl_flag_pres {β : Type} (f : Player → β → Player)
    (hf : ∀ a b, (f a b).is_on_ground = a.is_on_ground) :
    ∀ (l : List β) (a : Player), (l.foldl f a).is_on_ground = a.is_on_ground := by
  intro l
  induction l with
  | nil => intro a; rfl
  | cons b l ih =>
      intro a
      rw [List.foldl_cons, ih, hf]

theorem resolve_collisions_x_flag (st : Player) (w : World) :
    (st.resolve_collisions w Axis.X).is_on_ground = st.is_on_ground := by
  unfold Player.resolve_collisions
  apply foldl_flag_pres
  intro a b
  apply foldl_flag_pres
  intro a2 b2
  apply foldl_flag_pres
  intro a3 b3
  exact resolve_voxel_x_flag w a3 b3 b2 b

theorem resolve_collisions_z_flag (st : Player) (w : World) :
    (st.resolve_collisions w Axis.Z).is_on_ground = st.is_on_ground := by
  unfold Player.resolve_collisions
  apply foldl_flag_pres
  intro a b
  apply foldl_flag_pres
  intro a2 b2
  apply foldl_flag_pres
  intro a3 b3
  exact resolve_voxel_z_flag w a3 b3 b2 b

theorem resolve_voxel_y_flag_iff (w : World) (p : Player) (x y z : Int) :
    ((resolve_voxel w Axis.Y p x y z).is_on_ground = true ↔
      (p.is_on_ground = true ∨
        (voxel_solid w x y z = true ∧ voxel_overlap p x y z ∧
          pen_y p y ≤ pen_x p x ∧ pen_y p y ≤ pen_z p z ∧
          ¬(player_max_y p - (y : ℚ) < ((y : ℚ) + 1) - player_min_y p)))) := by
  simp only [resolve_voxel]
  by_cases h1 : voxel_solid w x y z = false
  · simp [h1]
  · have h1t : voxel_solid w x y z = true := by
      cases hvs : voxel_solid w x y z
      · exact absurd hvs h1
      · rfl
    by_cases h2 : voxel_overlap p x y z
    · by_cases h3 : pen_y p y ≤ pen_x p x ∧ pen_y p y ≤ pen_z p z
      · by_cases h4 : player_max_y p - (y : ℚ) < ((y : ℚ) + 1) - player_min_y p
        · simp [h1t, h2, h3, h3.1, h3.2, h4]
        · simp [h1t, h2, h3, h3.1, h3.2, h4]
      · have h3' : ¬(pen_y p y ≤ pen_x p x) ∨ ¬(pen_y p y ≤ pen_z p z) := by
          by_cases ha : pen_y p y ≤ pen_x p x
          · exact Or.inr fun hb => h3 ⟨ha, hb⟩
          · exact Or.inl ha
        rcases h3' with h3' | h3' <;> simp [h1t, h2, h3, h3']
    · simp [h1t, h2]

/-! ## Player physics claims -/

section

set_option allowUnsafeReducibility true
attribute [local semireducible] Rat.add Rat.sub Rat.mul Rat.div Rat.neg Rat.inv
attribute [local semireducible] Rat.blt Rat.normalize Rat.maybeNormalize mkRat
set_option maxRecDepth 100000

/-- C8 (amended). Per-axis collision resolution: in an axis pass, a solid
voxel overlapping the player box triggers a correction on that axis only
when that axis has the minimal penetration among all three axes; the
correction then moves the position on that axis by the smaller of the two
per-side penetration depths plus EPSILON, toward the side with the
smaller penetration, and zeroes that axis of the velocity.  (Without the
minimal-penetration condition the claim fails, as the counterexample
shows.) -/
theorem per_axis_collision_resolution (w : World) (p : Player) (x y z : Int) :
    (voxel_solid w x y z = true → voxel_overlap p x y z →
      pen_x p x ≤ pen_y p y → pen_x p x ≤ pen_z p z →
      resolve_voxel w Axis.X p x y z =
        (if player_max_x p - (x : ℚ) < ((x : ℚ) + 1) - player_min_x p then
          Player.mk (p.position.1 - ((player_max_x p - (x : ℚ)) + EPSILON),
              p.position.2.1, p.position.2.2)
            (0, p.velocity.2.1, p.velocity.2.2) p.width p.height p.is_on_ground
        else
          Player.mk (p.position.1 + (((x : ℚ) + 1 - player_min_x p) + EPSILON),
              p.position.2.1, p.position.2.2)
            (0, p.velocity.2.1, p.velocity.2.2) p.width p.height p.is_on_ground)) ∧
    (voxel_solid w x y z = true → voxel_overlap p x y z →
      pen_y p y ≤ pen_x p x → pen_y p y ≤ pen_z p z →
      resolve_voxel w Axis.Y p x y z =
        (if player_max_y p - (y : ℚ) < ((y : ℚ) + 1) - player_min_y p then
          Player.mk (p.position.1,
              p.position.2.1 - ((player_max_y p - (y : ℚ)) + EPSILON),
              p.position.2.2)
            (p.velocity.1, 0, p.velocity.2.2) p.width p.height p.is_on_ground
        else
          Player.mk (p.position.1,
              p.position.2.1 + (((y : ℚ) + 1 - player_min_y p) + EPSILON),
              p.position.2.2)
            (p.velocity.1, 0, p.velocity.2.2) p.width p.height true)) ∧
    (voxel_solid w x y z = true → voxel_overlap p x y z →
      pen_z p z ≤ pen_x p x → pen_z p z ≤ pen_y p y →
      resolve_voxel w Axis.Z p x y z =
        (if player_max_z p - (z : ℚ) < ((z : ℚ) + 1) - player_min_z p then
          Player.mk (p.position.1, p.position.2.1,
              p.position.2.2 - ((player_max_z p - (z : ℚ)) + EPSILON))
            (p.velocity.1, p.velocity.2.1, 0) p.width p.height p.is_on_ground
        else
          Player.mk (p.position.1, p.position.2.1,
              p.position.2.2 + (((z : ℚ) + 1 - player_min_z p) + EPSILON))
            (p.velocity.1, p.velocity.2.1, 0) p.width p.height
            p.is_on_ground)) := by
  refine ⟨?_, ?_, ?_⟩ <;> intro hs hov h1 h2 <;> simp only [resolve_voxel] <;>
    rw [if_neg (by simp [hs]), if_pos hov, if_pos ⟨h1, h2⟩]

/-- Counterexample to C8 as stated: Stone at (0,0,0) overlaps the player
box, yet the x pass leaves position and velocity entirely unchanged (the
x penetration is not minimal), so no x correction and no zeroing of the
x velocity happen. -/
theorem per_axis_collision_resolution_cex :
    voxel_solid groundWorld 0 0 0 = true ∧
    voxel_overlap playerDeepOverlap 0 0 0 ∧
    playerDeepOverlap.resolve_collisions groundWorld Axis.X = playerDeepOverlap ∧
    playerDeepOverlap.velocity.1 = 1 :=
  ⟨by decide, by decide, by decide, rfl⟩

/-- Witness for C8: the player overlapping the Stone voxel from the right
side with minimal x penetration is pushed out to the right and stopped. -/
theorem per_axis_collision_resolution_witness :
    resolve_voxel groundWorld Axis.X playerSideOverlap 0 0 0 =
      (if player_max_x playerSideOverlap - ((0 : Int) : ℚ) <
          (((0 : Int) : ℚ) + 1) - player_min_x playerSideOverlap then
        Player.mk (playerSideOverlap.position.1 -
            ((player_max_x playerSideOverlap - ((0 : Int) : ℚ)) + EPSILON),
            playerSideOverlap.position.2.1, playerSideOverlap.position.2.2)
          (0, playerSideOverlap.velocity.2.1, playerSideOverlap.velocity.2.2)
          playerSideOverlap.width playerSideOverlap.height
          playerSideOverlap.is_on_ground
      else
        Player.mk (playerSideOverlap.position.1 +
            ((((0 : Int) : ℚ) + 1 - player_min_x playerSideOverlap) + EPSILON),
            playerSideOverlap.position.2.1, playerSideOverlap.position.2.2)
          (0, playerSideOverlap.velocity.2.1, playerSideOverlap.velocity.2.2)
          playerSideOverlap.width playerSideOverlap.height
          playerSideOverlap.is_on_ground) :=
  (per_axis_collision_resolution groundWorld playerSideOverlap 0 0 0).1
    (by decide) (by decide) (by decide) (by decide)

/-- C9. Grounded flag semantics: the x and z passes never change the
grounded flag; the y-pass body sets it exactly on an upward (push-up)
correction; `Player::update` behaves as if the flag were cleared on
entry; and the reference scenario (a box resting exactly on a Stone
voxel, zero horizontal velocity, gravity for one step of 0.01) ends with
vertical velocity 0, the flag set, and the vertical position moved only
by the resolution EPSILON. -/
theorem grounded_flag_semantics :
    (∀ (w : World) (st : Player),
      (st.resolve_collisions w Axis.X).is_on_ground = st.is_on_ground) ∧
    (∀ (w : World) (st : Player),
      (st.resolve_collisions w Axis.Z).is_on_ground = st.is_on_ground) ∧
    (∀ (w : World) (p : Player) (x y z : Int),
      ((resolve_voxel w Axis.Y p x y z).is_on_ground = true ↔
        (p.is_on_ground = true ∨
          (voxel_solid w x y z = true ∧ voxel_overlap p x y z ∧
            pen_y p y ≤ pen_x p x ∧ pen_y p y ≤ pen_z p z ∧
            ¬(player_max_y p - (y : ℚ) < ((y : ℚ) + 1) - player_min_y p))))) ∧
    (∀ (p : Player) (w : World) (dt : ℚ),
      p.update w dt =
        (Player.mk p.position p.velocity p.width p.height false).update w dt) ∧
    ((playerResting.update groundWorld (1 / 100)).velocity.2.1 = 0 ∧
      (playerResting.update groundWorld (1 / 100)).is_on_ground = true ∧
      (playerResting.update groundWorld (1 / 100)).position.2.1 =
        19 / 10 + EPSILON) :=
  ⟨fun w st => resolve_collisions_x_flag st w,
   fun w st => resolve_collisions_z_flag st w,
   resolve_voxel_y_flag_iff,
   fun _ _ _ => rfl,
   by decide, by decide, by decide⟩

end

/-! ## Mesher lemmas -/

theorem foldl_append_flatten {α β : Type} (F : List α → β → List α) (G : β → List α)
    (hF : ∀ a x, F a x = a ++ G x) :
    ∀ (l : List β) (a : List α), l.foldl F a = a ++ (l.map G).flatten := by
  intro l
  induction l with
  | nil => intro a; simp
  | cons b t ih =>
      intro a
      rw [List.foldl_cons, ih, hF, List.map_cons, List.flatten_cons,
        List.append_assoc]

theorem length_flatten_map {α β : Type} (f : β → List α) (l : List β) :
    ((l.map f).flatten).length = (l.map fun b => (f b).length).sum := by
  induction l <;> simp [*]

theorem avf_body_eq (m : ChunkMesher) (chunk : Chunk)
    (x y z : Nat) (v : VoxelType) (ox oy oz : ℚ) :
    ∀ (a : List Vertex) (fd : FaceDirection × (Nat × Nat × Nat)),
      (if should_render_face chunk fd.2 then
        m.add_face a ((x : ℚ) + ox) ((y : ℚ) + oy) ((z : ℚ) + oz) fd.1 v
      else a) =
      a ++ (if should_render_face chunk fd.2 then
        List.zipWith (fun pos uv => Vertex.mk pos uv fd.1.normal)
          (fd.1.vertices ((x : ℚ) + ox) ((y : ℚ) + oy) ((z : ℚ) + oz))
          (m.texture_atlas.get_uvs v fd.1)
      else []) := by
  intro a fd
  by_cases h : should_render_face chunk fd.2 <;>
    simp [h, ChunkMesher.add_face]

theorem avf_flatten (m : ChunkMesher) (mesh : List Vertex) (chunk : Chunk)
    (x y z : Nat) (v : VoxelType) (ox oy oz : ℚ) :
    m.add_voxel_faces mesh chunk x y z v ox oy oz =
      mesh ++ ((voxel_faces x y z).map (fun fd =>
        if should_render_face chunk fd.2 then
          List.zipWith (fun pos uv => Vertex.mk pos uv fd.1.normal)
            (fd.1.vertices ((x : ℚ) + ox) ((y : ℚ) + oy) ((z : ℚ) + oz))
            (m.texture_atlas.get_uvs v fd.1)
        else [])).flatten :=
  foldl_append_flatten _ _ (avf_body_eq m chunk x y z v ox oy oz)
    (voxel_faces x y z) mesh

theorem add_voxel_faces_eq (m : ChunkMesher) (mesh : List Vertex) (chunk : Chunk)
    (x y z : Nat) (v : VoxelType) (ox oy oz : ℚ) :
    m.add_voxel_faces mesh chunk x y z v ox oy oz =
      mesh ++ m.add_voxel_faces [] chunk x y z v ox oy oz :=
  (avf_flatten m mesh chunk x y z v ox oy oz).trans
    (congrArg (mesh ++ ·)
      ((List.nil_append _).symm.trans
        (avf_flatten m [] chunk x y z v ox oy oz).symm))

theorem face_quad_length (m : ChunkMesher) (x y z : ℚ) (d : FaceDirection)
    (v : VoxelType) :
    (List.zipWith (fun pos uv => Vertex.mk pos uv d.normal)
      (d.vertices x y z) (m.texture_atlas.get_uvs v d)).length = 6 := by
  cases d <;> rfl

theorem flatten_map_ite_length {β : Type} (p : β → Bool) (f : β → List Vertex)
    (hlen : ∀ b, (f b).length = 6) :
    ∀ l : List β,
      ((l.map (fun b => if p b then f b else [])).flatten).length =
        6 * l.countP p := by
  intro l
  induction l with
  | nil => simp
  | cons b t ih =>
      by_cases hb : p b <;>
        simp [hb, ih, hlen, List.countP_cons, Nat.mul_add] <;> omega

theorem add_voxel_faces_length (m : ChunkMesher) (mesh : List Vertex)
    (chunk : Chunk) (x y z : Nat) (v : VoxelType) (ox oy oz : ℚ) :
    (m.add_voxel_faces mesh chunk x y z v ox oy oz).length =
      mesh.length +
        6 * ((voxel_faces x y z).countP fun fd => should_render_face chunk fd.2) := by
  rw [avf_flatten m mesh chunk x y z v ox oy oz, List.length_append]
  congr 1
  exact flatten_map_ite_length _ _
    (fun fd => face_quad_length m _ _ _ fd.1 v) (voxel_faces x y z)

theorem gm_cell_eq (m : ChunkMesher) (chunk : Chunk) (cp : ChunkPos)
    (y z : Nat) :
    ∀ (a : List Vertex) (x : Nat),
      (match chunk.get_voxel x y z with
        | none => a
        | some voxel =>
            if voxel = VoxelType.Air then a
            else m.add_voxel_faces a chunk x y z voxel
              (mesh_offset_x cp) (mesh_offset_y cp) (mesh_offset_z cp)) =
      a ++ cell_contrib m chunk cp x y z := by
  intro a x
  unfold cell_contrib
  cases hv : chunk.get_voxel x y z with
  | none => simp
  | some v =>
      by_cases hair : v = VoxelType.Air
      · simp [hair]
      · simp only [hair, if_false]
        exact add_voxel_faces_eq m a chunk x y z v _ _ _

theorem gm_x_eq (m : ChunkMesher) (chunk : Chunk) (cp : ChunkPos) (y z : Nat) :
    ∀ a : List Vertex,
      (List.range CHUNK_SIZE).foldl (fun mx x =>
        match chunk.get_voxel x y z with
        | none => mx
        | some voxel =>
            if voxel = VoxelType.Air then mx
            else m.add_voxel_faces mx chunk x y z voxel
              (mesh_offset_x cp) (mesh_offset_y cp) (mesh_offset_z cp)) a =
      a ++ ((List.range CHUNK_SIZE).map (fun x =>
        cell_contrib m chunk cp x y z)).flatten := fun a =>
  foldl_append_flatten _ _ (gm_cell_eq m chunk cp y z) (List.range CHUNK_SIZE) a

theorem gm_y_eq (m : ChunkMesher) (chunk : Chunk) (cp : ChunkPos) (z : Nat) :
    ∀ a : List Vertex,
      (List.range CHUNK_SIZE).foldl (fun my y =>
        (List.range CHUNK_SIZE).foldl (fun mx x =>
          match chunk.get_voxel x y z with
          | none => mx
          | some voxel =>
              if voxel = VoxelType.Air then mx
              else m.add_voxel_faces mx chunk x y z voxel
                (mesh_offset_x cp) (mesh_offset_y cp) (mesh_offset_z cp)) my) a =
      a ++ ((List.range CHUNK_SIZE).map (fun y =>
        ((List.range CHUNK_SIZE).map (fun x =>
          cell_contrib m chunk cp x y z)).flatten)).flatten := fun a =>
  foldl_append_flatten _ _ (fun a2 y => gm_x_eq m chunk cp y z a2)
    (List.range CHUNK_SIZE) a

theorem generate_mesh_eq (m : ChunkMesher) (chunk : Chunk) (cp : ChunkPos) :
    m.generate_mesh chunk cp =
      ((List.range CHUNK_SIZE).map (fun z =>
        ((List.range CHUNK_SIZE).map (fun y =>
          ((List.range CHUNK_SIZE).map (fun x =>
            cell_contrib m chunk cp x y z)).flatten)).flatten)).flatten :=
  (foldl_append_flatten _ _ (fun a z => gm_y_eq m chunk cp z a)
    (List.range CHUNK_SIZE) []).trans (List.nil_append _)

theorem generate_mesh_length (m : ChunkMesher) (chunk : Chunk) (cp : ChunkPos) :
    (m.generate_mesh chunk cp).length =
      ((List.range CHUNK_SIZE).map (fun z =>
        ((List.range CHUNK_SIZE).map (fun y =>
          ((List.range CHUNK_SIZE).map (fun x =>
            (cell_contrib m chunk cp x y z).length)).sum)).sum)).sum := by
  rw [generate_mesh_eq, length_flatten_map]
  simp only [length_flatten_map]

theorem should_render_face_iff (c : Chunk) (np : Nat × Nat × Nat) :
    should_render_face c np = true ↔
      ((CHUNK_SIZE ≤ np.1 ∨ CHUNK_SIZE ≤ np.2.1 ∨ CHUNK_SIZE ≤ np.2.2) ∨
        c.voxels (get_chunk_index np.1 np.2.1 np.2.2) = VoxelType.Air) := by
  unfold should_render_face Chunk.get_voxel
  by_cases hb : CHUNK_SIZE ≤ np.1 ∨ CHUNK_SIZE ≤ np.2.1 ∨ CHUNK_SIZE ≤ np.2.2
  · simp [hb]
  · cases hv : c.voxels (get_chunk_index np.1 np.2.1 np.2.2) <;> simp [hb, hv]

theorem cell_contrib_air (m : ChunkMesher) (cp : ChunkPos) (x y z : Nat) :
    cell_contrib m Chunk.new cp x y z = [] := rfl

theorem sum_map_const_zero {β : Type} (l : List β) :
    (l.map (fun _ => (0 : Nat))).sum = 0 := by
  induction l <;> simp [*]

theorem generate_mesh_air (m : ChunkMesher) (cp : ChunkPos) :
    (m.generate_mesh Chunk.new cp).length = 0 := by
  rw [generate_mesh_length]
  simp [cell_contrib_air, sum_map_const_zero]

theorem sum_map_range_zero (n t A : Nat) (h : n ≤ t) :
    ((List.range n).map (fun i => if i = t then A else 0)).sum = 0 := by
  induction n with
  | zero => simp
  | succ k ih =>
      rw [List.range_succ, List.map_append, List.sum_append, ih (by omega)]
      have hk : k ≠ t := by omega
      simp [hk]

theorem sum_map_range_indicator (n t A : Nat) (h : t < n) :
    ((List.range n).map (fun i => if i = t then A else 0)).sum = A := by
  induction n with
  | zero => omega
  | succ k ih =>
      rw [List.range_succ, List.map_append, List.sum_append]
      by_cases ht : t = k
      · subst ht
        rw [sum_map_range_zero t t A (le_refl t)]
        simp
      · rw [ih (by omega)]
        simp [Ne.symm ht]

theorem sum_map_range_congr (n : Nat) (f g : Nat → Nat)
    (h : ∀ i, i < n → f i = g i) :
    ((List.range n).map f).sum = ((List.range n).map g).sum := by
  rw [List.map_congr_left (fun a ha => h a (List.mem_range.mp ha))]

theorem stone_get (tx ty tz x y z : Nat) (htx : tx < 16) (hty : ty < 16)
    (htz : tz < 16) (hx : x < 16) (hy : y < 16) (hz : z < 16) :
    (Chunk.new.set_voxel tx ty tz VoxelType.Stone).get_voxel x y z =
      some (if x = tx ∧ y = ty ∧ z = tz then VoxelType.Stone
            else VoxelType.Air) := by
  unfold Chunk.get_voxel Chunk.set_voxel Chunk.new
  by_cases hidx : get_chunk_index x y z = get_chunk_index tx ty tz
  · obtain ⟨e1, e2, e3⟩ :=
      get_chunk_index_inj x y z tx ty tz hx hy hz htx hty htz hidx
    simp [hidx, e1, e2, e3]
  · have hne : ¬(x = tx ∧ y = ty ∧ z = tz) := by
      rintro ⟨rfl, rfl, rfl⟩
      exact hidx rfl
    simp [hidx, hne]

theorem srf_stone_air (tx ty tz nx ny nz : Nat) (htx : tx < 16) (hty : ty < 16)
    (htz : tz < 16) (hnx : nx < 16) (hny : ny < 16) (hnz : nz < 16)
    (hne : ¬(nx = tx ∧ ny = ty ∧ nz = tz)) :
    should_render_face (Chunk.new.set_voxel tx ty tz VoxelType.Stone)
      (nx, ny, nz) = true := by
  rw [should_render_face_iff]
  right
  have := stone_get tx ty tz nx ny nz htx hty htz hnx hny hnz
  unfold Chunk.get_voxel at this
  have hcell := Option.some.inj this
  simpa [hne] using hcell

theorem stone_interior_countP (tx ty tz : Nat)
    (h1 : 1 ≤ tx) (h2 : tx ≤ 14) (h3 : 1 ≤ ty) (h4 : ty ≤ 14)
    (h5 : 1 ≤ tz) (h6 : tz ≤ 14) :
    (voxel_faces tx ty tz).countP
      (fun fd => should_render_face
        (Chunk.new.set_voxel tx ty tz VoxelType.Stone) fd.2) = 6 := by
  have hwx : usize_wrapping_sub_one tx = tx - 1 := by
    unfold usize_wrapping_sub_one
    omega
  have hwy : usize_wrapping_sub_one ty = ty - 1 := by
    unfold usize_wrapping_sub_one
    omega
  have hwz : usize_wrapping_sub_one tz = tz - 1 := by
    unfold usize_wrapping_sub_one
    omega
  have hN := srf_stone_air tx ty tz tx ty (tz + 1) (by omega) (by omega)
    (by omega) (by omega) (by omega) (by omega) (by omega)
  have hS := srf_stone_air tx ty tz tx ty (tz - 1) (by omega) (by omega)
    (by omega) (by omega) (by omega) (by omega) (by omega)
  have hE := srf_stone_air tx ty tz (tx + 1) ty tz (by omega) (by omega)
    (by omega) (by omega) (by omega) (by omega) (by omega)
  have hW := srf_stone_air tx ty tz (tx - 1) ty tz (by omega) (by omega)
    (by omega) (by omega) (by omega) (by omega) (by omega)
  have hT := srf_stone_air tx ty tz tx (ty + 1) tz (by omega) (by omega)
    (by omega) (by omega) (by omega) (by omega) (by omega)
  have hB := srf_stone_air tx ty tz tx (ty - 1) tz (by omega) (by omega)
    (by omega) (by omega) (by omega) (by omega) (by omega)
  simp [voxel_faces, List.countP_cons, hwx, hwy, hwz, hN, hS, hE, hW, hT, hB]

theorem stone_cell_len (m : ChunkMesher) (cp : ChunkPos) (tx ty tz x y z : Nat)
    (h1 : 1 ≤ tx) (h2 : tx ≤ 14) (h3 : 1 ≤ ty) (h4 : ty ≤ 14)
    (h5 : 1 ≤ tz) (h6 : tz ≤ 14) (hx : x < 16) (hy : y < 16) (hz : z < 16) :
    (cell_contrib m (Chunk.new.set_voxel tx ty tz VoxelType.Stone) cp x y z).length =
      if x = tx ∧ y = ty ∧ z = tz then 36 else 0 := by
  unfold cell_contrib
  rw [stone_get tx ty tz x y z (by omega) (by omega) (by omega) hx hy hz]
  by_cases hxyz : x = tx ∧ y = ty ∧ z = tz
  · obtain ⟨rfl, rfl, rfl⟩ := hxyz
    simp only [and_self, if_true]
    rw [show (if VoxelType.Stone = VoxelType.Air then ([] : List Vertex)
        else m.add_voxel_faces [] (Chunk.new.set_voxel x y z VoxelType.Stone)
          x y z VoxelType.Stone (mesh_offset_x cp) (mesh_offset_y cp)
          (mesh_offset_z cp)) =
      m.add_voxel_faces [] (Chunk.new.set_voxel x y z VoxelType.Stone)
        x y z VoxelType.Stone (mesh_offset_x cp) (mesh_offset_y cp)
        (mesh_offset_z cp) from by simp]
    rw [add_voxel_faces_length,
      stone_interior_countP x y z h1 h2 h3 h4 h5 h6]
    rfl
  · simp [hxyz]

theorem generate_mesh_single_stone (m : ChunkMesher) (cp : ChunkPos)
    (tx ty tz : Nat) (h1 : 1 ≤ tx) (h2 : tx ≤ 14) (h3 : 1 ≤ ty) (h4 : ty ≤ 14)
    (h5 : 1 ≤ tz) (h6 : tz ≤ 14) :
    (m.generate_mesh (Chunk.new.set_voxel tx ty tz VoxelType.Stone) cp).length =
      36 := by
  have hx_level : ∀ y z : Nat, y < 16 → z < 16 →
      ((List.range 16).map (fun x =>
        (cell_contrib m (Chunk.new.set_voxel tx ty tz VoxelType.Stone) cp
          x y z).length)).sum =
        if y = ty ∧ z = tz then 36 else 0 := by
    intro y z hy hz
    rw [sum_map_range_congr 16 _ (fun x => if x = tx ∧ y = ty ∧ z = tz then 36 else 0)
      (fun x hx => stone_cell_len m cp tx ty tz x y z h1 h2 h3 h4 h5 h6 hx hy hz)]
    by_cases hyz : y = ty ∧ z = tz
    · rw [sum_map_range_congr 16 _ (fun x => if x = tx then 36 else 0)
        (by intro x hx; simp [hyz.1, hyz.2])]
      rw [sum_map_range_indicator 16 tx 36 (by omega), if_pos hyz]
    · rw [sum_map_range_congr 16 _ (fun _ => 0)
        (by intro x hx; exact if_neg (fun hc => hyz ⟨hc.2.1, hc.2.2⟩))]
      rw [sum_map_const_zero, if_neg hyz]
  have hy_level : ∀ z : Nat, z < 16 →
      ((List.range 16).map (fun y =>
        ((List.range 16).map (fun x =>
          (cell_contrib m (Chunk.new.set_voxel tx ty tz VoxelType.Stone) cp
            x y z).length)).sum)).sum =
        if z = tz then 36 else 0 := by
    intro z hz
    rw [sum_map_range_congr 16 _ (fun y => if y = ty ∧ z = tz then 36 else 0)
      (fun y hy => hx_level y z hy hz)]
    by_cases hzz : z = tz
    · rw [sum_map_range_congr 16 _ (fun y => if y = ty then 36 else 0)
        (by intro y hy; simp [hzz])]
      rw [sum_map_range_indicator 16 ty 36 (by omega), if_pos hzz]
    · rw [sum_map_range_congr 16 _ (fun _ => 0)
        (by intro y hy; exact if_neg (fun hc => hzz hc.2))]
      rw [sum_map_const_zero, if_neg hzz]
  rw [generate_mesh_length]
  simp only [CHUNK_SIZE]
  rw [sum_map_range_congr 16 _ (fun z => if z = tz then 36 else 0)
    (fun z hz => hy_level z hz)]
  exact sum_map_range_indicator 16 tz 36 (by omega)

theorem fc_north (c : Chunk) (x y z : Nat) (hx : x < 16) (hy : y < 16)
    (hz : z < 16) :
    (should_render_face c (x, y, z + 1) = true ↔
      (¬ in_chunk_bounds ((x : Int), (y : Int), (z : Int) + 1) ∨
        (in_chunk_bounds ((x : Int), (y : Int), (z : Int) + 1) ∧
          c.get_voxel ((x : Int)).toNat ((y : Int)).toNat ((z : Int) + 1).toNat = some VoxelType.Air))) := by
  have e1 : ((x : Int)).toNat = x := by omega
  have e2 : ((y : Int)).toNat = y := by omega
  have e3 : ((z : Int)).toNat = z := by omega
  have e4 : ((x : Int) + 1).toNat = x + 1 := by omega
  have e5 : ((y : Int) + 1).toNat = y + 1 := by omega
  have e6 : ((z : Int) + 1).toNat = z + 1 := by omega
  rw [should_render_face_iff]
  unfold Chunk.get_voxel
  simp only [e1, e2, e3, e4, e5, e6]
  by_cases hb : z + 1 < 16
  · have hA : ¬(CHUNK_SIZE ≤ ((x, y, z + 1) : Nat × Nat × Nat).1 ∨
        CHUNK_SIZE ≤ ((x, y, z + 1) : Nat × Nat × Nat).2.1 ∨
        CHUNK_SIZE ≤ ((x, y, z + 1) : Nat × Nat × Nat).2.2) := by
      simp only [CHUNK_SIZE]
      omega
    have hB : in_chunk_bounds ((x : Int), (y : Int), (z : Int) + 1) := by
      simp only [in_chunk_bounds, CHUNK_SIZE]
      omega
    simp [hA, hB]
  · have hA : CHUNK_SIZE ≤ ((x, y, z + 1) : Nat × Nat × Nat).1 ∨
        CHUNK_SIZE ≤ ((x, y, z + 1) : Nat × Nat × Nat).2.1 ∨
        CHUNK_SIZE ≤ ((x, y, z + 1) : Nat × Nat × Nat).2.2 := by
      simp only [CHUNK_SIZE]
      omega
    have hB : ¬ in_chunk_bounds ((x : Int), (y : Int), (z : Int) + 1) := by
      simp only [in_chunk_bounds, CHUNK_SIZE]
      omega
    simp [hA, hB]

theorem fc_east (c : Chunk) (x y z : Nat) (hx : x < 16) (hy : y < 16)
    (hz : z < 16) :
    (should_render_face c (x + 1, y, z) = true ↔
      (¬ in_chunk_bounds ((x : Int) + 1, (y : Int), (z : Int)) ∨
        (in_chunk_bounds ((x : Int) + 1, (y : Int), (z : Int)) ∧
          c.get_voxel ((x : Int) + 1).toNat ((y : Int)).toNat ((z : Int)).toNat = some VoxelType.Air))) := by
  have e1 : ((x : Int)).toNat = x := by omega
  have e2 : ((y : Int)).toNat = y := by omega
  have e3 : ((z : Int)).toNat = z := by omega
  have e4 : ((x : Int) + 1).toNat = x + 1 := by omega
  have e5 : ((y : Int) + 1).toNat = y + 1 := by omega
  have e6 : ((z : Int) + 1).toNat = z + 1 := by omega
  rw [should_render_face_iff]
  unfold Chunk.get_voxel
  simp only [e1, e2, e3, e4, e5, e6]
  by_cases hb : x + 1 < 16
  · have hA : ¬(CHUNK_SIZE ≤ ((x + 1, y, z) : Nat × Nat × Nat).1 ∨
        CHUNK_SIZE ≤ ((x + 1, y, z) : Nat × Nat × Nat).2.1 ∨
        CHUNK_SIZE ≤ ((x + 1, y, z) : Nat × Nat × Nat).2.2) := by
      simp only [CHUNK_SIZE]
      omega
    have hB : in_chunk_bounds ((x : Int) + 1, (y : Int), (z : Int)) := by
      simp only [in_chunk_bounds, CHUNK_SIZE]
      omega
    simp [hA, hB]
  · have hA : CHUNK_SIZE ≤ ((x + 1, y, z) : Nat × Nat × Nat).1 ∨
        CHUNK_SIZE ≤ ((x + 1, y, z) : Nat × Nat × Nat).2.1 ∨
        CHUNK_SIZE ≤ ((x + 1, y, z) : Nat × Nat × Nat).2.2 := by
      simp only [CHUNK_SIZE]
      omega
    have hB : ¬ in_chunk_bounds ((x : Int) + 1, (y : Int), (z : Int)) := by
      simp only [in_chunk_bounds, CHUNK_SIZE]
      omega
    simp [hA, hB]

theorem fc_top (c : Chunk) (x y z : Nat) (hx : x < 16) (hy : y < 16)
    (hz : z < 16) :
    (should_render_face c (x, y + 1, z) = true ↔
      (¬ in_chunk_bounds ((x : Int), (y : Int) + 1, (z : Int)) ∨
        (in_chunk_bounds ((x : Int), (y : Int) + 1, (z : Int)) ∧
          c.get_voxel ((x : Int)).toNat ((y : Int) + 1).toNat ((z : Int)).toNat = some VoxelType.Air))) := by
  have e1 : ((x : Int)).toNat = x := by omega
  have e2 : ((y : Int)).toNat = y := by omega
  have e3 : ((z : Int)).toNat = z := by omega
  have e4 : ((x : Int) + 1).toNat = x + 1 := by omega
  have e5 : ((y : Int) + 1).toNat = y + 1 := by omega
  have e6 : ((z : Int) + 1).toNat = z + 1 := by omega
  rw [should_render_face_iff]
  unfold Chunk.get_voxel
  simp only [e1, e2, e3, e4, e5, e6]
  by_cases hb : y + 1 < 16
  · have hA : ¬(CHUNK_SIZE ≤ ((x, y + 1, z) : Nat × Nat × Nat).1 ∨
        CHUNK_SIZE ≤ ((x, y + 1, z) : Nat × Nat × Nat).2.1 ∨
        CHUNK_SIZE ≤ ((x, y + 1, z) : Nat × Nat × Nat).2.2) := by
      simp only [CHUNK_SIZE]
      omega
    have hB : in_chunk_bounds ((x : Int), (y : Int) + 1, (z : Int)) := by
      simp only [in_chunk_bounds, CHUNK_SIZE]
      omega
    simp [hA, hB]
  · have hA : CHUNK_SIZE ≤ ((x, y + 1, z) : Nat × Nat × Nat).1 ∨
        CHUNK_SIZE ≤ ((x, y + 1, z) : Nat × Nat × Nat).2.1 ∨
        CHUNK_SIZE ≤ ((x, y + 1, z) : Nat × Nat × Nat).2.2 := by
      simp only [CHUNK_SIZE]
      omega
    have hB : ¬ in_chunk_bounds ((x : Int), (y : Int) + 1, (z : Int)) := by
      simp only [in_chunk_bounds, CHUNK_SIZE]
      omega
    simp [hA, hB]

theorem fc_south (c : Chunk) (x y z : Nat) (hx : x < 16) (hy : y < 16)
    (hz : z < 16) :
    (should_render_face c (x, y, usize_wrapping_sub_one z) = true ↔
      (¬ in_chunk_bounds ((x : Int), (y : Int), (z : Int) - 1) ∨
        (in_chunk_bounds ((x : Int), (y : Int), (z : Int) - 1) ∧
          c.get_voxel ((x : Int)).toNat ((y : Int)).toNat ((z : Int) - 1).toNat = some VoxelType.Air))) := by
  by_cases h0 : z = 0
  · subst h0
    have hw : usize_wrapping_sub_one 0 = 2 ^ 64 - 1 := by
      unfold usize_wrapping_sub_one
      norm_num
    constructor
    · intro _
      left
      simp only [in_chunk_bounds, CHUNK_SIZE]
      omega
    · intro _
      rw [should_render_face_iff]
      left
      simp only [hw, CHUNK_SIZE]
      omega
  · have hw : usize_wrapping_sub_one z = z - 1 := by
      unfold usize_wrapping_sub_one
      omega
    have e1 : ((x : Int)).toNat = x := by omega
    have e2 : ((y : Int)).toNat = y := by omega
    have e3 : ((z : Int)).toNat = z := by omega
    have e4 : ((x : Int) - 1).toNat = x - 1 := by omega
    have e5 : ((y : Int) - 1).toNat = y - 1 := by omega
    have e6 : ((z : Int) - 1).toNat = z - 1 := by omega
    rw [show ((x, y, usize_wrapping_sub_one z) : Nat × Nat × Nat) = (x, y, z - 1) from by rw [hw]]
    rw [should_render_face_iff]
    unfold Chunk.get_voxel
    simp only [e1, e2, e3, e4, e5, e6]
    have hA : ¬(CHUNK_SIZE ≤ ((x, y, z - 1) : Nat × Nat × Nat).1 ∨
        CHUNK_SIZE ≤ ((x, y, z - 1) : Nat × Nat × Nat).2.1 ∨
        CHUNK_SIZE ≤ ((x, y, z - 1) : Nat × Nat × Nat).2.2) := by
      simp only [CHUNK_SIZE]
      omega
    have hB : in_chunk_bounds ((x : Int), (y : Int), (z : Int) - 1) := by
      simp only [in_chunk_bounds, CHUNK_SIZE]
      omega
    simp [hA, hB]

theorem fc_west (c : Chunk) (x y z : Nat) (hx : x < 16) (hy : y < 16)
    (hz : z < 16) :
    (should_render_face c (usize_wrapping_sub_one x, y, z) = true ↔
      (¬ in_chunk_bounds ((x : Int) - 1, (y : Int), (z : Int)) ∨
        (in_chunk_bounds ((x : Int) - 1, (y : Int), (z : Int)) ∧
          c.get_voxel ((x : Int) - 1).toNat ((y : Int)).toNat ((z : Int)).toNat = some VoxelType.Air))) := by
  by_cases h0 : x = 0
  · subst h0
    have hw : usize_wrapping_sub_one 0 = 2 ^ 64 - 1 := by
      unfold usize_wrapping_sub_one
      norm_num
    constructor
    · intro _
      left
      simp only [in_chunk_bounds, CHUNK_SIZE]
      omega
    · intro _
      rw [should_render_face_iff]
      left
      simp only [hw, CHUNK_SIZE]
      omega
  · have hw : usize_wrapping_sub_one x = x - 1 := by
      unfold usize_wrapping_sub_one
      omega
    have e1 : ((x : Int)).toNat = x := by omega
    have e2 : ((y : Int)).toNat = y := by omega
    have e3 : ((z : Int)).toNat = z := by omega
    have e4 : ((x : Int) - 1).toNat = x - 1 := by omega
    have e5 : ((y : Int) - 1).toNat = y - 1 := by omega
    have e6 : ((z : Int) - 1).toNat = z - 1 := by omega
    rw [show ((usize_wrapping_sub_one x, y, z) : Nat × Nat × Nat) = (x - 1, y, z) from by rw [hw]]
    rw [should_render_face_iff]
    unfold Chunk.get_voxel
    simp only [e1, e2, e3, e4, e5, e6]
    have hA : ¬(CHUNK_SIZE ≤ ((x - 1, y, z) : Nat × Nat × Nat).1 ∨
        CHUNK_SIZE ≤ ((x - 1, y, z) : Nat × Nat × Nat).2.1 ∨
        CHUNK_SIZE ≤ ((x - 1, y, z) : Nat × Nat × Nat).2.2) := by
      simp only [CHUNK_SIZE]
      omega
    have hB : in_chunk_bounds ((x : Int) - 1, (y : Int), (z : Int)) := by
      simp only [in_chunk_bounds, CHUNK_SIZE]
      omega
    simp [hA, hB]

theorem fc_bottom (c : Chunk) (x y z : Nat) (hx : x < 16) (hy : y < 16)
    (hz : z < 16) :
    (should_render_face c (x, usize_wrapping_sub_one y, z) = true ↔
      (¬ in_chunk_bounds ((x : Int), (y : Int) - 1, (z : Int)) ∨
        (in_chunk_bounds ((x : Int), (y : Int) - 1, (z : Int)) ∧
          c.get_voxel ((x : Int)).toNat ((y : Int) - 1).toNat ((z : Int)).toNat = some VoxelType.Air))) := by
  by_cases h0 : y = 0
  · subst h0
    have hw : usize_wrapping_sub_one 0 = 2 ^ 64 - 1 := by
      unfold usize_wrapping_sub_one
      norm_num
    constructor
    · intro _
      left
      simp only [in_chunk_bounds, CHUNK_SIZE]
      omega
    · intro _
      rw [should_render_face_iff]
      left
      simp only [hw, CHUNK_SIZE]
      omega
  · have hw : usize_wrapping_sub_one y = y - 1 := by
      unfold usize_wrapping_sub_one
      omega
    have e1 : ((x : Int)).toNat = x := by omega
    have e2 : ((y : Int)).toNat = y := by omega
    have e3 : ((z : Int)).toNat = z := by omega
    have e4 : ((x : Int) - 1).toNat = x - 1 := by omega
    have e5 : ((y : Int) - 1).toNat = y - 1 := by omega
    have e6 : ((z : Int) - 1).toNat = z - 1 := by omega
    rw [show ((x, usize_wrapping_sub_one y, z) : Nat × Nat × Nat) = (x, y - 1, z) from by rw [hw]]
    rw [should_render_face_iff]
    unfold Chunk.get_voxel
    simp only [e1, e2, e3, e4, e5, e6]
    have hA : ¬(CHUNK_SIZE ≤ ((x, y - 1, z) : Nat × Nat × Nat).1 ∨
        CHUNK_SIZE ≤ ((x, y - 1, z) : Nat × Nat × Nat).2.1 ∨
        CHUNK_SIZE ≤ ((x, y - 1, z) : Nat × Nat × Nat).2.2) := by
      simp only [CHUNK_SIZE]
      omega
    have hB : in_chunk_bounds ((x : Int), (y : Int) - 1, (z : Int)) := by
      simp only [in_chunk_bounds, CHUNK_SIZE]
      omega
    simp [hA, hB]

/-- C4. Mesher face culling: the visibility test accepts a neighbor
exactly when it lies outside the chunk bounds or holds Air; each face
passing the test contributes six vertices; meshing an all-Air chunk
yields zero vertices; and meshing a chunk whose only non-Air voxel is one
Stone at a non-boundary local coordinate yields exactly 36 vertices. -/
theorem mesher_face_culling :
    (∀ (c : Chunk) (x y z : Nat) (d : FaceDirection) (np : Nat × Nat × Nat),
      x < CHUNK_SIZE → y < CHUNK_SIZE → z < CHUNK_SIZE →
      (d, np) ∈ voxel_faces x y z →
      (should_render_face c np = true ↔
        (¬ in_chunk_bounds (neighbor_int d (x : Int) (y : Int) (z : Int)) ∨
          (in_chunk_bounds (neighbor_int d (x : Int) (y : Int) (z : Int)) ∧
            c.get_voxel (neighbor_int d (x : Int) (y : Int) (z : Int)).1.toNat
              (neighbor_int d (x : Int) (y : Int) (z : Int)).2.1.toNat
              (neighbor_int d (x : Int) (y : Int) (z : Int)).2.2.toNat =
              some VoxelType.Air)))) ∧
    (∀ (m : ChunkMesher) (mesh : List Vertex) (chunk : Chunk) (x y z : Nat)
      (v : VoxelType) (ox oy oz : ℚ),
      (m.add_voxel_faces mesh chunk x y z v ox oy oz).length =
        mesh.length + 6 * ((voxel_faces x y z).countP
          fun fd => should_render_face chunk fd.2)) ∧
    (∀ (m : ChunkMesher) (cp : ChunkPos),
      (m.generate_mesh Chunk.new cp).length = 0) ∧
    (∀ (m : ChunkMesher) (cp : ChunkPos) (tx ty tz : Nat),
      1 ≤ tx → tx ≤ 14 → 1 ≤ ty → ty ≤ 14 → 1 ≤ tz → tz ≤ 14 →
      (m.generate_mesh (Chunk.new.set_voxel tx ty tz VoxelType.Stone)
        cp).length = 36) := by
  refine ⟨?_, add_voxel_faces_length, generate_mesh_air,
    fun m cp tx ty tz h1 h2 h3 h4 h5 h6 =>
      generate_mesh_single_stone m cp tx ty tz h1 h2 h3 h4 h5 h6⟩
  intro c x y z d np hx hy hz hmem
  simp only [voxel_faces, List.mem_cons, List.not_mem_nil, or_false,
    Prod.mk.injEq] at hmem
  rcases hmem with ⟨rfl, rfl⟩ | ⟨rfl, rfl⟩ | ⟨rfl, rfl⟩ | ⟨rfl, rfl⟩ |
    ⟨rfl, rfl⟩ | ⟨rfl, rfl⟩
  · simpa [neighbor_int] using fc_north c x y z hx hy hz
  · simpa [neighbor_int] using fc_south c x y z hx hy hz
  · simpa [neighbor_int] using fc_east c x y z hx hy hz
  · simpa [neighbor_int] using fc_west c x y z hx hy hz
  · simpa [neighbor_int] using fc_top c x y z hx hy hz
  · simpa [neighbor_int] using fc_bottom c x y z hx hy hz

/-- Witness for C4: the West face of the interior Stone voxel at (8,8,8)
is visible (its neighbor (7,8,8) is in bounds and Air), and that chunk
meshes to exactly 36 vertices. -/
theorem mesher_face_culling_witness :
    (should_render_face stoneInteriorChunk (7, 8, 8) = true ↔
      (¬ in_chunk_bounds (neighbor_int FaceDirection.West 8 8 8) ∨
        (in_chunk_bounds (neighbor_int FaceDirection.West 8 8 8) ∧
          stoneInteriorChunk.get_voxel
            (neighbor_int FaceDirection.West 8 8 8).1.toNat
            (neighbor_int FaceDirection.West 8 8 8).2.1.toNat
            (neighbor_int FaceDirection.West 8 8 8).2.2.toNat =
            some VoxelType.Air))) ∧
    (ChunkMesher.new.generate_mesh stoneInteriorChunk
      (ChunkPos.new 0 0 0)).length = 36 :=
  ⟨mesher_face_culling.1 stoneInteriorChunk 8 8 8 FaceDirection.West (7, 8, 8)
    (by decide) (by decide) (by decide) (by decide),
   mesher_face_culling.2.2.2 ChunkMesher.new (ChunkPos.new 0 0 0) 8 8 8
    (by decide) (by decide) (by decide) (by decide) (by decide) (by decide)⟩

end VoxelWorld
